import Mathlib

/-!
# Surface fairing (`src/pmp/algorithms/fairing.cpp`)

A shallow embedding of `pmp::fair`, `pmp::minimize_area` and
`pmp::minimize_curvature`, and the properties of the fairing specification
proved (or refuted) on it.

The surface mesh, the operator assembly (`setup_stiffness_matrix`,
`setup_mass_matrix`) and the constrained solver (`cholesky_solve`) are
collaborators whose code lives outside `fairing.cpp`; the mesh queries are
fields of `SurfaceMesh`, the assembly and the solver are the fields of
`Laplace`, a parameter of `fair`.
-/

namespace pmp

/-! ## Data model -/

/-- Position of a vertex: a three-component vector. Coordinates are exact
rationals here; the conversions between `Point` and `Eigen::Vector3d` rows
(lines 110 and 129) keep the value. -/
abbrev Point := ℚ × ℚ × ℚ

/-- Dense `rows × 3` matrix (`DenseMatrix`), given by its rows; `row i` is
meaningful for `i < rows`. -/
structure DenseMatrix where
  rows : Nat
  row : Nat → Point

/-- The matrix `DenseMatrix B(n, 3); B.setZero();`. -/
def DenseMatrix.setZero (n : Nat) : DenseMatrix :=
  { rows := n, row := fun _ => 0 }

/-- The assignment `X.row(i) = p`. -/
def DenseMatrix.set_row (X : DenseMatrix) (i : Nat) (p : Point) : DenseMatrix :=
  { X with row := fun j => if j = i then p else X.row j }

/-- The assignment `prop[v] = x` on a per-vertex array. -/
def assign {α : Type} (prop : Nat → α) (v : Nat) (x : α) : Nat → α :=
  fun u => if u = v then x else prop u

/-- Surface mesh as `fair` sees it. Vertices are the handles
`0 .. n_vertices - 1`.
* `is_boundary v`, `is_isolated v`: the queries of the same name;
* `vertices_around v`: the vertices the circulator `mesh.vertices(v)` visits
  (the one-ring of `v`), in order;
* `points`: the attribute `"v:point"`;
* `vprops`: the table of boolean per-vertex attributes, name and array, in
  the order they were added. -/
structure SurfaceMesh where
  n_vertices : Nat
  is_boundary : Nat → Bool
  is_isolated : Nat → Bool
  vertices_around : Nat → List Nat
  points : Nat → Point
  vprops : List (String × (Nat → Bool))

/-- The range `mesh.vertices()`: all vertex handles in increasing order. -/
def SurfaceMesh.vertices (mesh : SurfaceMesh) : List Nat :=
  List.range mesh.n_vertices

/-- Modelled from the spec: the attribute store of the mesh is not part of
`fairing.cpp`. `get_vertex_property<bool>(name)` returns the attribute of
that name, or "absent" if it was not created. -/
def SurfaceMesh.get_vertex_property (mesh : SurfaceMesh) (name : String) :
    Option (Nat → Bool) :=
  (mesh.vprops.find? (fun p => p.1 = name)).map (fun p => p.2)

/-- Modelled from the spec: the attribute store of the mesh is not part of
`fairing.cpp`. `add_vertex_property<bool>(name)` creates a new attribute with
the default value `false` at the end of the table; the handle it returns is
the position of the new entry. -/
def SurfaceMesh.add_vertex_property (mesh : SurfaceMesh) (name : String) :
    SurfaceMesh × Nat :=
  ({ mesh with vprops := mesh.vprops ++ [(name, fun _ => false)] },
   mesh.vprops.length)

/-- Modelled from the spec: the attribute store of the mesh is not part of
`fairing.cpp`. `remove_vertex_property(h)` removes the attribute the handle
`h` refers to. -/
def SurfaceMesh.remove_vertex_property (mesh : SurfaceMesh) (h : Nat) :
    SurfaceMesh :=
  { mesh with vprops := mesh.vprops.eraseIdx h }

/-- Writing the array `a` through the handle `h` (the effect of the
assignments `vlocked[v] = true` on the table of the mesh). -/
def SurfaceMesh.store (mesh : SurfaceMesh) (h : Nat) (a : Nat → Bool) :
    SurfaceMesh :=
  { mesh with vprops := mesh.vprops.modify (fun p => (p.1, a)) h }

/-- Whether the mesh carries a boolean per-vertex attribute of that name. -/
def SurfaceMesh.has_vertex_property (mesh : SurfaceMesh) (name : String) : Bool :=
  mesh.vprops.any (fun p => p.1 = name)

/-- Exceptions that leave `fair`. -/
inductive Exception
  | InvalidInputException (what : String)
  | SolverException (what : String)
  deriving DecidableEq, Repr

deriving instance DecidableEq for Except

/-- Calls `fair` makes to its collaborators, as recorded in program order. -/
inductive Call
  | add_vertex_property (name : String)
  | remove_vertex_property (name : String)
  | setup_stiffness_matrix
  | setup_mass_matrix
  | cholesky_solve
  deriving DecidableEq, Repr

/-- Assembly and solver routines of `pmp/algorithms/laplace.h`, which
`fair` calls and `fairing.cpp` does not define. `Mat` is the type of the
square operators (`SparseMatrix`, `DiagonalMatrix`); their product and
`DiagonalMatrix::inverse` are the `Mul` and `Inv` of `Mat`.
* `setup_stiffness_matrix mesh clamp flag`, `setup_mass_matrix mesh flag`:
  the matrices `S` and `M` the routines store in their output argument;
* `mul_dense M B`: the product `M * B` with a dense matrix;
* `cholesky_solve A B is_constrained C`: the solution, or the message of
  the `SolverException` it throws. -/
structure Laplace (Mat : Type) where
  setup_stiffness_matrix : SurfaceMesh → Bool → Bool → Mat
  setup_mass_matrix : SurfaceMesh → Bool → Mat
  mul_dense : Mat → DenseMatrix → DenseMatrix
  cholesky_solve :
    Mat → DenseMatrix → (Nat → Bool) → DenseMatrix → Except String DenseMatrix

/-! ## `fair`, lines 28-82: the locked mask -/

/-- Lines 32-39: the loop over the vertices that leaves at the first
selected one; `true` when it found one. -/
def some_selected (vselected : Nat → Bool) : List Nat → Bool
  | [] => false
  | v :: vs => if vselected v then true else some_selected vselected vs

/-- Lines 29-40: `no_selection`. -/
def no_selection (mesh : SurfaceMesh) (vselected : Option (Nat → Bool)) : Bool :=
  match vselected with
  | none => true
  | some sel => !(some_selected sel mesh.vertices)

/-- Lines 60-63: lock the one-ring of `vv`. -/
def lock_vvv (mesh : SurfaceMesh) (vlocked : Nat → Bool) (vv : Nat) : Nat → Bool :=
  (mesh.vertices_around vv).foldl (fun l vvv => assign l vvv true) vlocked

/-- Lines 53-65: lock the one-ring of `v` and, if `k > 2`, the one-ring of
each of its vertices. -/
def lock_vv (mesh : SurfaceMesh) (k : Nat) (vlocked : Nat → Bool) (v : Nat) :
    Nat → Bool :=
  (mesh.vertices_around v).foldl
    (fun l vv =>
      let l := assign l vv true
      if k > 2 then lock_vvv mesh l vv else l)
    vlocked

/-- Lines 43-68: lock `k` boundary rings. -/
def lock_boundary_rings (mesh : SurfaceMesh) (k : Nat) (vlocked : Nat → Bool) :
    Nat → Bool :=
  mesh.vertices.foldl
    (fun l v =>
      if mesh.is_boundary v then
        let l := assign l v true
        if k > 1 then lock_vv mesh k l v else l
      else l)
    vlocked

/-- Line 73: the test `!no_selection && !vselected[v]`; the handle is read
only when `no_selection` is false, which needs a valid handle. -/
def unselected (no_sel : Bool) (vselected : Option (Nat → Bool)) (v : Nat) : Bool :=
  !no_sel &&
    (match vselected with
     | some sel => !(sel v)
     | none => false)

/-- Lines 71-82: lock un-selected and isolated vertices. -/
def lock_unselected_isolated (mesh : SurfaceMesh) (no_sel : Bool)
    (vselected : Option (Nat → Bool)) (vlocked : Nat → Bool) : Nat → Bool :=
  mesh.vertices.foldl
    (fun l v =>
      let l := if unselected no_sel vselected v then assign l v true else l
      if mesh.is_isolated v then assign l v true else l)
    vlocked

/-- Lines 24-82: the array `vlocked` when the second locking loop is done,
starting from the default value `false` of the new attribute. -/
def locked_mask (mesh : SurfaceMesh) (k : Nat) : Nat → Bool :=
  let vselected := mesh.get_vertex_property "v:selected"
  let no_sel := no_selection mesh vselected
  let vlocked := lock_boundary_rings mesh k (fun _ => false)
  lock_unselected_isolated mesh no_sel vselected vlocked

/-- Lines 85-93: the loop that leaves at the first locked vertex. -/
def something_locked (vlocked : Nat → Bool) : List Nat → Bool
  | [] => false
  | v :: vs => if vlocked v then true else something_locked vlocked vs

/-! ## `fair`, lines 101-133: assembly, solve and write-back -/

/-- Lines 108-110: the matrix `X` whose rows are the current positions.
`DenseMatrix X(n, 3)` leaves the entries unspecified until the loop assigns
them; the embedding starts from zero rows. -/
def initial_guess (mesh : SurfaceMesh) (points : Nat → Point) : DenseMatrix :=
  mesh.vertices.foldl (fun X v => X.set_row v (points v))
    { rows := mesh.n_vertices, row := fun _ => 0 }

/-- Lines 118-120: `A = S; for (i = 1; i < k; ++i) A = S * invM * A;`. The
loop body runs for `i = 1, ..., k - 1`. -/
def compose_operator {Mat : Type} [Mul Mat] (S invM : Mat) (k : Nat) : Mat :=
  (List.range' 1 (k - 1)).foldl (fun A _ => S * invM * A) S

/-- Lines 128-129: copy the rows of the solution to the positions. -/
def copy_solution (mesh : SurfaceMesh) (X : DenseMatrix) (points : Nat → Point) :
    Nat → Point :=
  mesh.vertices.foldl (fun pts v => assign pts v (X.row v)) points

/-- What a call of `fair` leaves behind: the mesh, whether it returned or
which exception left it, and the calls it made. -/
structure FairResult where
  mesh : SurfaceMesh
  outcome : Except Exception Unit
  calls : List Call

/-- The function `fair(mesh, k)`, lines 19-133. The order `k` is an
`unsigned int` in the source; no arithmetic on it can wrap (the counter of
line 119 stays below `k`), so it is a natural number here. Likewise
`n_vertices` is taken without the bound of the `int` of line 101. The handle
`vlocked` refers to the array stored in the mesh: the mask is computed first
and written through the handle, which gives the mesh of line 82. -/
def fair {Mat : Type} [Mul Mat] [Inv Mat] (ext : Laplace Mat)
    (mesh : SurfaceMesh) (k : Nat) : FairResult :=
  -- get & add properties
  let points := mesh.points
  let added := mesh.add_vertex_property "fairing:locked"
  let h := added.2
  -- lines 28-82, written through the handle
  let vlocked := locked_mask mesh k
  let mesh1 := added.1.store h vlocked
  -- we need locked vertices as boundary constraints
  if !(something_locked vlocked mesh.vertices) then
    { mesh := mesh1.remove_vertex_property h
      outcome := .error (.InvalidInputException "fair: Missing boundary constraints.")
      calls := [.add_vertex_property "fairing:locked",
                .remove_vertex_property "fairing:locked"] }
  else
    let n := mesh.n_vertices
    -- build (zero) right-hand side B
    let B := DenseMatrix.setZero n
    -- positions will be used as constraints
    let X := initial_guess mesh1 points
    -- build matrix
    let S := ext.setup_stiffness_matrix mesh1 false true
    let M := ext.setup_mass_matrix mesh1 false
    let invM := M⁻¹
    let A := compose_operator S invM k
    let B := ext.mul_dense M B
    -- solve system
    match ext.cholesky_solve A B vlocked X with
    | .error what =>
      { mesh := mesh1
        outcome := .error (.SolverException what)
        calls := [.add_vertex_property "fairing:locked", .setup_stiffness_matrix,
                  .setup_mass_matrix, .cholesky_solve] }
    | .ok X =>
      -- copy solution
      let mesh2 := { mesh1 with points := copy_solution mesh1 X points }
      -- remove properties
      { mesh := mesh2.remove_vertex_property h
        outcome := .ok ()
        calls := [.add_vertex_property "fairing:locked", .setup_stiffness_matrix,
                  .setup_mass_matrix, .cholesky_solve,
                  .remove_vertex_property "fairing:locked"] }

/-- The function `minimize_area(mesh)`, lines 9-12. -/
def minimize_area {Mat : Type} [Mul Mat] [Inv Mat] (ext : Laplace Mat)
    (mesh : SurfaceMesh) : FairResult :=
  fair ext mesh 1

/-- The function `minimize_curvature(mesh)`, lines 14-17. -/
def minimize_curvature {Mat : Type} [Mul Mat] [Inv Mat] (ext : Laplace Mat)
    (mesh : SurfaceMesh) : FairResult :=
  fair ext mesh 2

/-! ## Contracts of the collaborators and auxiliary predicates -/

/-- The mesh from line 82 on, while the attribute `"fairing:locked"` is
attached and holds the locked mask. -/
def attached (mesh : SurfaceMesh) (k : Nat) : SurfaceMesh :=
  (mesh.add_vertex_property "fairing:locked").1.store
    (mesh.add_vertex_property "fairing:locked").2 (locked_mask mesh k)

/-- The call of line 125 with the arguments lines 101-124 build for it. -/
def solver_call {Mat : Type} [Mul Mat] [Inv Mat] (ext : Laplace Mat)
    (mesh : SurfaceMesh) (k : Nat) : Except String DenseMatrix :=
  ext.cholesky_solve
    (compose_operator (ext.setup_stiffness_matrix (attached mesh k) false true)
      (ext.setup_mass_matrix (attached mesh k) false)⁻¹ k)
    (ext.mul_dense (ext.setup_mass_matrix (attached mesh k) false)
      (DenseMatrix.setZero mesh.n_vertices))
    (locked_mask mesh k)
    (initial_guess (attached mesh k) mesh.points)

/-- What one iteration of the loop of lines 43-68 locks for the boundary
vertex `v`: `v`, for `k > 1` its one-ring, for `k > 2` the one-ring of each
vertex of its one-ring. -/
def ring_locked (mesh : SurfaceMesh) (k : Nat) (v u : Nat) : Prop :=
  mesh.is_boundary v = true ∧
    (u = v ∨ (1 < k ∧ ∃ vv ∈ mesh.vertices_around v,
      (u = vv ∨ (2 < k ∧ u ∈ mesh.vertices_around vv))))

/-- Modelled from the spec: `cholesky_solve` is declared in
`pmp/algorithms/laplace.h` and not defined in `fairing.cpp`; its contract
(section 6) is to solve `A·X = B` "subject to a per-row predicate selecting
rows whose value is pinned to the corresponding row of an initial-guess
matrix". This is the pinning half of it: whenever the solver returns, every
row the predicate selects is the row of the initial guess `C`. -/
def pins_constrained_rows {Mat : Type}
    (solve : Mat → DenseMatrix → (Nat → Bool) → DenseMatrix → Except String DenseMatrix) :
    Prop :=
  ∀ A B is_constrained C X, solve A B is_constrained C = .ok X →
    ∀ i, i < C.rows → is_constrained i = true → X.row i = C.row i

/-- No vertex of the mesh is selected: the attribute `"v:selected"` is
absent, or it is `false` at every vertex. -/
def nothing_selected (mesh : SurfaceMesh) : Prop :=
  ∀ sel, mesh.get_vertex_property "v:selected" = some sel →
    ∀ v, v < mesh.n_vertices → sel v = false

/-- The message of the exception of line 97-98; `__func__` is `fair`. -/
def missing_boundary_constraints : Exception :=
  .InvalidInputException "fair: Missing boundary constraints."

/-! ## Example meshes and collaborators for the concrete evaluations -/

/-- Square pyramid without its base: apex `0` above the centre of the
square `1, 2, 3, 4`; faces `(0,1,2)`, `(0,2,3)`, `(0,3,4)`, `(0,4,1)`. The
four base vertices are the boundary, the apex is interior. -/
def pyramid : SurfaceMesh :=
  { n_vertices := 5
    is_boundary := fun v => decide (1 ≤ v ∧ v ≤ 4)
    is_isolated := fun _ => false
    vertices_around := fun v =>
      match v with
      | 0 => [1, 2, 3, 4]
      | 1 => [2, 0, 4]
      | 2 => [3, 0, 1]
      | 3 => [4, 0, 2]
      | 4 => [1, 0, 3]
      | _ => []
    points := fun v =>
      match v with
      | 0 => (0, 0, 1)
      | 1 => (1, 1, 0)
      | 2 => (-1, 1, 0)
      | 3 => (-1, -1, 0)
      | 4 => (1, -1, 0)
      | _ => (0, 0, 0)
    vprops := [] }

/-- The pyramid with the apex `0` and the base vertex `1` selected. -/
def pyramid_selected : SurfaceMesh :=
  { pyramid with vprops := [("v:selected", fun v => decide (v ≤ 1))] }

/-- The pyramid and one more vertex, `5`, without incident edges. For an
isolated vertex both `is_isolated` and `is_boundary` hold. -/
def pyramid_and_isolated : SurfaceMesh :=
  { pyramid with
    n_vertices := 6
    is_boundary := fun v => decide (1 ≤ v ∧ v ≤ 5)
    is_isolated := fun v => decide (v = 5)
    points := fun v => if v = 5 then (7, 7, 7) else pyramid.points v }

/-- Closed tetrahedron: four vertices, every one adjacent to the three
others, no boundary. -/
def tetrahedron : SurfaceMesh :=
  { n_vertices := 4
    is_boundary := fun _ => false
    is_isolated := fun _ => false
    vertices_around := fun v =>
      match v with
      | 0 => [1, 2, 3]
      | 1 => [2, 0, 3]
      | 2 => [0, 1, 3]
      | 3 => [0, 2, 1]
      | _ => []
    points := fun v =>
      match v with
      | 0 => (0, 0, 0)
      | 1 => (1, 0, 0)
      | 2 => (0, 1, 0)
      | 3 => (0, 0, 1)
      | _ => (0, 0, 0)
    vprops := [] }

/-- The mesh without vertices. -/
def empty_mesh : SurfaceMesh :=
  { n_vertices := 0
    is_boundary := fun _ => false
    is_isolated := fun _ => false
    vertices_around := fun _ => []
    points := fun _ => (0, 0, 0)
    vprops := [] }

/-- Two components: the single triangle `0, 1, 2` (all boundary) and the
closed tetrahedron `3, 4, 5, 6`. With `k = 1` the free vertices are those of
the closed component, on which the constant vectors are in the kernel of the
stiffness operator: the reduced system is singular. -/
def triangle_and_tetrahedron : SurfaceMesh :=
  { n_vertices := 7
    is_boundary := fun v => decide (v ≤ 2)
    is_isolated := fun _ => false
    vertices_around := fun v =>
      match v with
      | 0 => [1, 2]
      | 1 => [2, 0]
      | 2 => [0, 1]
      | 3 => [4, 5, 6]
      | 4 => [5, 3, 6]
      | 5 => [3, 4, 6]
      | 6 => [3, 5, 4]
      | _ => []
    points := fun v =>
      match v with
      | 0 => (0, 0, 0)
      | 1 => (1, 0, 0)
      | 2 => (0, 1, 0)
      | 3 => (5, 0, 0)
      | 4 => (6, 0, 0)
      | 5 => (5, 1, 0)
      | 6 => (5, 0, 1)
      | _ => (0, 0, 0)
    vprops := [] }

/-- Stand-in for `cholesky_solve` in the concrete evaluations: the
constrained rows keep the row of `C`, the other rows take the row of `B`.
On the pyramid with `k ≤ 1` this is the solution of the real system: by the
symmetry of the four faces the free apex goes to the centroid of the base,
the origin. -/
def pin_solve (_A : Unit) (B : DenseMatrix) (is_constrained : Nat → Bool)
    (C : DenseMatrix) : Except String DenseMatrix :=
  .ok { rows := B.rows, row := fun i => if is_constrained i then C.row i else B.row i }

/-- Collaborators for the concrete evaluations; the operators carry no
information (`Unit`), the right-hand side `M * B` of the zero matrix is the
zero matrix. -/
def stand_in : Laplace Unit :=
  { setup_stiffness_matrix := fun _ _ _ => ()
    setup_mass_matrix := fun _ _ => ()
    mul_dense := fun _ B => B
    cholesky_solve := pin_solve }

/-- Collaborators whose solver reports a factorisation failure, as
`cholesky_solve` does on a singular reduced system. -/
def singular : Laplace Unit :=
  { stand_in with
    cholesky_solve := fun _ _ _ _ =>
      .error "cholesky_solve: Failed to factorize linear system." }

/-- The pyramid carrying the attribute `"v:selected"` with no vertex
selected. -/
def pyramid_nothing_selected : SurfaceMesh :=
  { pyramid with vprops := [("v:selected", fun _ => false)] }

/-- The pyramid with every vertex moved to another position; connectivity
and attributes are those of `pyramid`. -/
def pyramid_moved : SurfaceMesh :=
  { pyramid with points := fun v => (3, (v : ℚ), 5) }

/-- Modelled from the spec: `cholesky_solve` is not defined in
`fairing.cpp`; by section 4.3 the constrained rows of the initial guess are
the constraint values and the other rows are the unknowns, "the minimizer is
unique given the fixed constraints" (section 8). This is that half of the
contract: the result depends on the initial guess through its constrained
rows only. -/
def determined_by_pinned_rows {Mat : Type}
    (solve : Mat → DenseMatrix → (Nat → Bool) → DenseMatrix → Except String DenseMatrix) :
    Prop :=
  ∀ A B is_constrained C C2, C2.rows = C.rows →
    (∀ i, is_constrained i = true → C2.row i = C.row i) →
    solve A B is_constrained C2 = solve A B is_constrained C

/-! ### Collaborators with cotangent weights

A second set of collaborators for the concrete evaluations, on matrices of
rationals: the cotangent-weight stiffness operator and the one-third-area
mass operator of section 4.2, and an exact constrained solve for systems in
which no two free vertices are coupled. `SurfaceMesh` does not list the
faces; the assembly takes them as a list of vertex triples. -/

/-- Square matrix of rationals with `n` rows and columns, given by its
entries. -/
structure SquareMatrix where
  n : Nat
  entry : Nat → Nat → ℚ

/-- Matrix product. -/
instance : Mul SquareMatrix :=
  ⟨fun A B =>
    { n := A.n
      entry := fun i j => ((List.range A.n).map (fun l => A.entry i l * B.entry l j)).sum }⟩

/-- The inverse of a diagonal matrix (`DiagonalMatrix::inverse`): the
reciprocals of the diagonal entries. -/
instance : Inv SquareMatrix :=
  ⟨fun M => { n := M.n, entry := fun i j => if i = j then (M.entry i i)⁻¹ else 0 }⟩

/-- The multiple `c * p` of a vector. -/
def scale (c : ℚ) (p : Point) : Point := (c * p.1, c * p.2.1, c * p.2.2)

/-- Scalar product of two vectors. -/
def vdot (p q : Point) : ℚ := p.1 * q.1 + p.2.1 * q.2.1 + p.2.2 * q.2.2

/-- Cross product of two vectors. -/
def vcross (p q : Point) : Point :=
  (p.2.1 * q.2.2 - p.2.2 * q.2.1, p.2.2 * q.1 - p.1 * q.2.2, p.1 * q.2.1 - p.2.1 * q.1)

/-- Squared norm of the cross product of the edges `q - p` and `r - p`: four
times the squared area of the triangle `p, q, r`. -/
def cross_norm2 (p q r : Point) : ℚ :=
  vdot (vcross (q - p) (r - p)) (vcross (q - p) (r - p))

/-- Twice the area of the triangle `p, q, r`, the norm of the cross product.
`Rat.sqrt` is the exact root when `cross_norm2` is the square of a rational;
the evaluations below are at positions where it is. -/
def double_area (p q r : Point) : ℚ := Rat.sqrt (cross_norm2 p q r)

/-- Cotangent of the angle at `p` in the triangle `p, q, r`: the scalar
product of the two edges at `p` over the norm of their cross product. -/
def cotan (p q r : Point) : ℚ := vdot (q - p) (r - p) / double_area p q r

/-- The vertex of the face `f` opposite to the edge `(i, j)`, when `f` has
that edge. -/
def opposite (f : Nat × Nat × Nat) (i j : Nat) : Option Nat :=
  if (i = f.1 ∧ j = f.2.1) ∨ (i = f.2.1 ∧ j = f.1) then some f.2.2
  else if (i = f.2.1 ∧ j = f.2.2) ∨ (i = f.2.2 ∧ j = f.2.1) then some f.1
  else if (i = f.2.2 ∧ j = f.1) ∨ (i = f.1 ∧ j = f.2.2) then some f.2.1
  else none

/-- Cotangent weight of the edge `(i, j)`: half the sum of the cotangents of
the angles opposite to the edge in the faces that have it; zero when no face
has the edge. -/
def cot_weight (faces : List (Nat × Nat × Nat)) (mesh : SurfaceMesh) (i j : Nat) : ℚ :=
  (faces.map (fun f =>
    match opposite f i j with
    | some l => cotan (mesh.points l) (mesh.points i) (mesh.points j) / 2
    | none => 0)).sum

/-- Cotangent-weight stiffness operator: off the diagonal the weight of the
edge, on the diagonal minus the sum of the weights over the one-ring. -/
def cot_stiffness (faces : List (Nat × Nat × Nat)) (mesh : SurfaceMesh) : SquareMatrix :=
  { n := mesh.n_vertices
    entry := fun i j =>
      if i = j then
        -(((mesh.vertices_around i).map (fun l => cot_weight faces mesh i l)).sum)
      else cot_weight faces mesh i j }

/-- Mass operator: on the diagonal one third of the area of the incident
faces. -/
def area_mass (faces : List (Nat × Nat × Nat)) (mesh : SurfaceMesh) : SquareMatrix :=
  { n := mesh.n_vertices
    entry := fun i j =>
      if i = j then
        (faces.map (fun f =>
          if i = f.1 ∨ i = f.2.1 ∨ i = f.2.2 then
            double_area (mesh.points f.1) (mesh.points f.2.1) (mesh.points f.2.2) / 6
          else 0)).sum
      else 0 }

/-- The product of a square matrix and a dense matrix. -/
def mul_dense (M : SquareMatrix) (B : DenseMatrix) : DenseMatrix :=
  { rows := B.rows
    row := fun i => ((List.range M.n).map (fun l => scale (M.entry i l) (B.row l))).sum }

/-- The contribution of the constrained rows to row `i` of `A * C`. -/
def pinned_part (A : SquareMatrix) (is_constrained : Nat → Bool) (C : DenseMatrix)
    (i : Nat) : Point :=
  ((List.range C.rows).map
    (fun j => if is_constrained j then scale (A.entry i j) (C.row j) else 0)).sum

/-- Constrained solve of `A * X = B` for systems in which every free row of
`A` couples its vertex to constrained vertices only: row `i` then reads
`A i i * x i + (pinned part) = B i`. Constrained rows keep the row of `C`; a
zero diagonal entry on a free row is the singular system. -/
def decoupled_solve (A : SquareMatrix) (B : DenseMatrix) (is_constrained : Nat → Bool)
    (C : DenseMatrix) : Except String DenseMatrix :=
  if (List.range C.rows).any (fun i => !is_constrained i && decide (A.entry i i = 0)) then
    .error "cholesky_solve: Failed to factorize linear system."
  else
    .ok { rows := C.rows
          row := fun i =>
            if is_constrained i then C.row i
            else scale (A.entry i i)⁻¹ (B.row i - pinned_part A is_constrained C i) }

/-- Modelled from the spec: the assembly routines and the solver are not
part of `fairing.cpp`. Section 4.2 names the stiffness operator as the
"cotangent-weight discrete Laplacian" and the mass operator as a positive
diagonal, "one-third of incident triangle areas per vertex"; section 6 says
the clamping of negative cotangent weights is disabled; section 4.3 asks for
a solve that pins the constrained rows and satisfies `A * X = B` on the free
rows. These are those collaborators for a mesh with the faces `faces`. -/
def cotangent (faces : List (Nat × Nat × Nat)) : Laplace SquareMatrix :=
  { setup_stiffness_matrix := fun mesh _ _ => cot_stiffness faces mesh
    setup_mass_matrix := fun mesh _ => area_mass faces mesh
    mul_dense := mul_dense
    cholesky_solve := decoupled_solve }

/-- The four faces of the pyramid. -/
def pyramid_faces : List (Nat × Nat × Nat) :=
  [(0, 1, 2), (0, 2, 3), (0, 3, 4), (0, 4, 1)]

/-- A saddle: the connectivity of the pyramid, the boundary ring on the
skew quadrilateral `(5, 0, 2)`, `(0, 3, -2)`, `(-5, 0, 2)`, `(0, -3, -2)`
and the interior vertex `0` at `p`. The ring is not planar. -/
def saddle_at (p : Point) : SurfaceMesh :=
  { pyramid with
    points := fun v =>
      match v with
      | 0 => p
      | 1 => (5, 0, 2)
      | 2 => (0, 3, -2)
      | 3 => (-5, 0, 2)
      | 4 => (0, -3, -2)
      | _ => (0, 0, 0) }

/-! ## Lemmas on the loops -/

theorem assign_true_iff (l : Nat → Bool) (v u : Nat) :
    assign l v true u = true ↔ l u = true ∨ u = v := by
  unfold assign
  by_cases h : u = v
  · simp [h]
  · simp [h]

/-- A loop whose body only ever locks: after the loop a vertex is locked iff
it was locked before or one of the iterations locked it. -/
theorem foldl_lock_iff (step : (Nat → Bool) → Nat → (Nat → Bool))
    (P : Nat → Nat → Prop)
    (hstep : ∀ l x u, step l x u = true ↔ l u = true ∨ P x u) :
    ∀ (L : List Nat) (f : Nat → Bool) (u : Nat),
      L.foldl step f u = true ↔ f u = true ∨ ∃ x ∈ L, P x u := by
  intro L
  induction L with
  | nil => intro f u; simp
  | cons x xs ih =>
    intro f u
    rw [List.foldl_cons, ih, hstep]
    constructor
    · rintro ((h | h) | ⟨y, hy, h⟩)
      · exact Or.inl h
      · exact Or.inr ⟨x, List.mem_cons_self _ _, h⟩
      · exact Or.inr ⟨y, List.mem_cons_of_mem _ hy, h⟩
    · rintro (h | ⟨y, hy, h⟩)
      · exact Or.inl (Or.inl h)
      · rcases List.mem_cons.mp hy with rfl | hy
        · exact Or.inl (Or.inr h)
        · exact Or.inr ⟨y, hy, h⟩

theorem lock_vvv_iff (mesh : SurfaceMesh) (l : Nat → Bool) (vv u : Nat) :
    lock_vvv mesh l vv u = true ↔ l u = true ∨ u ∈ mesh.vertices_around vv := by
  unfold lock_vvv
  rw [foldl_lock_iff (fun l vvv => assign l vvv true) (fun x u => u = x)
    (fun l x u => assign_true_iff l x u)]
  simp

theorem lock_vv_iff (mesh : SurfaceMesh) (k : Nat) (l : Nat → Bool) (v u : Nat) :
    lock_vv mesh k l v u = true ↔
      l u = true ∨ ∃ vv ∈ mesh.vertices_around v,
        (u = vv ∨ (2 < k ∧ u ∈ mesh.vertices_around vv)) := by
  unfold lock_vv
  apply foldl_lock_iff _ (fun vv u => u = vv ∨ (2 < k ∧ u ∈ mesh.vertices_around vv))
  intro l x u
  by_cases hk : 2 < k
  · simp only [gt_iff_lt, hk, if_true, true_and, lock_vvv_iff, assign_true_iff]
    tauto
  · simp only [gt_iff_lt, hk, if_false, false_and, or_false, assign_true_iff]

theorem lock_boundary_rings_iff (mesh : SurfaceMesh) (k : Nat) (l : Nat → Bool)
    (u : Nat) :
    lock_boundary_rings mesh k l u = true ↔
      l u = true ∨ ∃ v ∈ mesh.vertices, ring_locked mesh k v u := by
  unfold lock_boundary_rings
  apply foldl_lock_iff _ (ring_locked mesh k)
  intro l v u
  unfold ring_locked
  by_cases hb : mesh.is_boundary v = true
  · by_cases hk : 1 < k
    · simp only [hb, gt_iff_lt, hk, if_true, true_and, lock_vv_iff, assign_true_iff]
      exact or_assoc
    · simp only [hb, gt_iff_lt, hk, if_true, if_false, true_and, false_and, or_false,
        assign_true_iff]
  · simp [hb]

theorem lock_unselected_isolated_iff (mesh : SurfaceMesh) (no_sel : Bool)
    (vselected : Option (Nat → Bool)) (l : Nat → Bool) (u : Nat) :
    lock_unselected_isolated mesh no_sel vselected l u = true ↔
      l u = true ∨ ∃ v ∈ mesh.vertices,
        (u = v ∧ (unselected no_sel vselected v = true ∨ mesh.is_isolated v = true)) := by
  unfold lock_unselected_isolated
  apply foldl_lock_iff _
    (fun v u => u = v ∧ (unselected no_sel vselected v = true ∨ mesh.is_isolated v = true))
  intro l v u
  by_cases h1 : unselected no_sel vselected v = true <;>
    by_cases h2 : mesh.is_isolated v = true <;>
    simp [h1, h2, assign_true_iff]

theorem some_selected_iff (sel : Nat → Bool) (L : List Nat) :
    some_selected sel L = true ↔ ∃ w ∈ L, sel w = true := by
  induction L with
  | nil => simp [some_selected]
  | cons x xs ih =>
    unfold some_selected
    by_cases h : sel x = true
    · simp [h]
    · simp [h, ih]

theorem something_locked_iff (l : Nat → Bool) (L : List Nat) :
    something_locked l L = true ↔ ∃ w ∈ L, l w = true := by
  induction L with
  | nil => simp [something_locked]
  | cons x xs ih =>
    unfold something_locked
    by_cases h : l x = true
    · simp [h]
    · simp [h, ih]

theorem mem_vertices (mesh : SurfaceMesh) (v : Nat) :
    v ∈ mesh.vertices ↔ v < mesh.n_vertices := by
  simp [SurfaceMesh.vertices]

theorem unselected_iff (mesh : SurfaceMesh) (vselected : Option (Nat → Bool)) (u : Nat) :
    unselected (no_selection mesh vselected) vselected u = true ↔
      ∃ sel, vselected = some sel ∧ (∃ w, w < mesh.n_vertices ∧ sel w = true) ∧
        sel u = false := by
  cases vselected with
  | none => simp [unselected, no_selection]
  | some sel =>
    simp only [unselected, no_selection, Bool.not_not, Bool.and_eq_true, Bool.not_eq_true',
      some_selected_iff, mem_vertices, Option.some.injEq, exists_eq_left']

/-- The locked mask in closed form: the disjunction of the conditions under
which one of the two locking loops writes `true` for the vertex `u`. -/
theorem locked_mask_iff (mesh : SurfaceMesh) (k u : Nat) :
    locked_mask mesh k u = true ↔
      (∃ v, v < mesh.n_vertices ∧ ring_locked mesh k v u) ∨
      (u < mesh.n_vertices ∧
        ((∃ sel, mesh.get_vertex_property "v:selected" = some sel ∧
            (∃ w, w < mesh.n_vertices ∧ sel w = true) ∧ sel u = false) ∨
          mesh.is_isolated u = true)) := by
  unfold locked_mask
  simp only [lock_unselected_isolated_iff, lock_boundary_rings_iff, mem_vertices,
    unselected_iff]
  constructor
  · rintro ((h | h) | ⟨v, hv, rfl, h⟩)
    · exact absurd h (by simp)
    · exact Or.inl h
    · exact Or.inr ⟨hv, h⟩
  · rintro (h | ⟨hu, h⟩)
    · exact Or.inl (Or.inr h)
    · exact Or.inr ⟨u, hu, rfl, h⟩

/-! ## Lemmas on `fair` -/

theorem modify_append_length {α : Type} (f : α → α) (l : List α) (x : α) :
    (l ++ [x]).modify f l.length = l ++ [f x] := by
  induction l with
  | nil => rfl
  | cons a l ih => simp [List.modify_succ_cons, ih]

theorem eraseIdx_append_length {α : Type} (l : List α) (x : α) :
    (l ++ [x]).eraseIdx l.length = l := by
  induction l with
  | nil => rfl
  | cons a l ih => simp [ih]

theorem attached_vprops (mesh : SurfaceMesh) (k : Nat) :
    (attached mesh k).vprops = mesh.vprops ++ [("fairing:locked", locked_mask mesh k)] := by
  simp [attached, SurfaceMesh.store, SurfaceMesh.add_vertex_property, modify_append_length]

/-- Removing the attribute through its handle gives back the table of the
mesh before the call. -/
theorem remove_attached (mesh : SurfaceMesh) (k : Nat) :
    (attached mesh k).remove_vertex_property (mesh.add_vertex_property "fairing:locked").2
      = mesh := by
  unfold SurfaceMesh.remove_vertex_property
  rw [attached_vprops]
  simp [attached, SurfaceMesh.store, SurfaceMesh.add_vertex_property, eraseIdx_append_length]

theorem remove_attached_points (mesh : SurfaceMesh) (k : Nat) (pts : Nat → Point) :
    SurfaceMesh.remove_vertex_property { attached mesh k with points := pts }
        (mesh.add_vertex_property "fairing:locked").2
      = { mesh with points := pts } := by
  unfold SurfaceMesh.remove_vertex_property
  simp only [attached_vprops]
  simp [attached, SurfaceMesh.store, SurfaceMesh.add_vertex_property, eraseIdx_append_length]

/-- The three exits of `fair`. -/
theorem fair_eq {Mat : Type} [Mul Mat] [Inv Mat] (ext : Laplace Mat)
    (mesh : SurfaceMesh) (k : Nat) :
    fair ext mesh k =
      if something_locked (locked_mask mesh k) mesh.vertices = false then
        { mesh := mesh
          outcome := .error missing_boundary_constraints
          calls := [.add_vertex_property "fairing:locked",
                    .remove_vertex_property "fairing:locked"] }
      else
        match solver_call ext mesh k with
        | .error what =>
          { mesh := attached mesh k
            outcome := .error (.SolverException what)
            calls := [.add_vertex_property "fairing:locked", .setup_stiffness_matrix,
                      .setup_mass_matrix, .cholesky_solve] }
        | .ok X =>
          { mesh := { mesh with points := copy_solution mesh X mesh.points }
            outcome := .ok ()
            calls := [.add_vertex_property "fairing:locked", .setup_stiffness_matrix,
                      .setup_mass_matrix, .cholesky_solve,
                      .remove_vertex_property "fairing:locked"] } := by
  by_cases h : something_locked (locked_mask mesh k) mesh.vertices = false
  · simp only [fair, h, Bool.not_false, if_true]
    rw [show (mesh.add_vertex_property "fairing:locked").1.store
        (mesh.add_vertex_property "fairing:locked").2 (locked_mask mesh k)
        = attached mesh k from rfl, remove_attached]
    rfl
  · have h1 : something_locked (locked_mask mesh k) mesh.vertices = true := by
      simpa using h
    rw [if_neg h]
    have hfair : fair ext mesh k =
        match solver_call ext mesh k with
        | .error what =>
          { mesh := attached mesh k
            outcome := .error (.SolverException what)
            calls := [.add_vertex_property "fairing:locked", .setup_stiffness_matrix,
                      .setup_mass_matrix, .cholesky_solve] }
        | .ok X =>
          { mesh := SurfaceMesh.remove_vertex_property
              { attached mesh k with points := copy_solution (attached mesh k) X mesh.points }
              (mesh.add_vertex_property "fairing:locked").2
            outcome := .ok ()
            calls := [.add_vertex_property "fairing:locked", .setup_stiffness_matrix,
                      .setup_mass_matrix, .cholesky_solve,
                      .remove_vertex_property "fairing:locked"] } := by
      simp only [fair, h1, Bool.not_true, Bool.false_eq_true, if_false]
      rfl
    rw [hfair]
    cases solver_call ext mesh k with
    | error what => rfl
    | ok X =>
      simp only
      rw [remove_attached_points]
      rfl

theorem nothing_locked_iff (mesh : SurfaceMesh) (k : Nat) :
    something_locked (locked_mask mesh k) mesh.vertices = false ↔
      ∀ v, v < mesh.n_vertices → locked_mask mesh k v = false := by
  rw [← Bool.not_eq_true, something_locked_iff]
  simp [mem_vertices]

theorem fair_nothing_locked {Mat : Type} [Mul Mat] [Inv Mat] (ext : Laplace Mat)
    (mesh : SurfaceMesh) (k : Nat)
    (h : ∀ v, v < mesh.n_vertices → locked_mask mesh k v = false) :
    fair ext mesh k =
      { mesh := mesh
        outcome := .error missing_boundary_constraints
        calls := [.add_vertex_property "fairing:locked",
                  .remove_vertex_property "fairing:locked"] } := by
  rw [fair_eq, if_pos ((nothing_locked_iff mesh k).mpr h)]

theorem fair_solver_error {Mat : Type} [Mul Mat] [Inv Mat] (ext : Laplace Mat)
    (mesh : SurfaceMesh) (k : Nat) (what : String)
    (h : ¬ ∀ v, v < mesh.n_vertices → locked_mask mesh k v = false)
    (hs : solver_call ext mesh k = .error what) :
    fair ext mesh k =
      { mesh := attached mesh k
        outcome := .error (.SolverException what)
        calls := [.add_vertex_property "fairing:locked", .setup_stiffness_matrix,
                  .setup_mass_matrix, .cholesky_solve] } := by
  rw [fair_eq, if_neg (fun hn => h ((nothing_locked_iff mesh k).mp hn)), hs]

theorem fair_solver_ok {Mat : Type} [Mul Mat] [Inv Mat] (ext : Laplace Mat)
    (mesh : SurfaceMesh) (k : Nat) (X : DenseMatrix)
    (h : ¬ ∀ v, v < mesh.n_vertices → locked_mask mesh k v = false)
    (hs : solver_call ext mesh k = .ok X) :
    fair ext mesh k =
      { mesh := { mesh with points := copy_solution mesh X mesh.points }
        outcome := .ok ()
        calls := [.add_vertex_property "fairing:locked", .setup_stiffness_matrix,
                  .setup_mass_matrix, .cholesky_solve,
                  .remove_vertex_property "fairing:locked"] } := by
  rw [fair_eq, if_neg (fun hn => h ((nothing_locked_iff mesh k).mp hn)), hs]

/-- A successful return comes from a successful solve with some vertex
locked. -/
theorem fair_ok_inv {Mat : Type} [Mul Mat] [Inv Mat] (ext : Laplace Mat)
    (mesh : SurfaceMesh) (k : Nat) (hok : (fair ext mesh k).outcome = .ok ()) :
    (¬ ∀ v, v < mesh.n_vertices → locked_mask mesh k v = false) ∧
      ∃ X, solver_call ext mesh k = .ok X := by
  by_cases h : ∀ v, v < mesh.n_vertices → locked_mask mesh k v = false
  · rw [fair_nothing_locked ext mesh k h] at hok
    cases hok
  · refine ⟨h, ?_⟩
    cases hs : solver_call ext mesh k with
    | error what =>
      rw [fair_solver_error ext mesh k what h hs] at hok
      cases hok
    | ok X => exact ⟨X, rfl⟩

theorem copy_solution_apply (mesh : SurfaceMesh) (X : DenseMatrix) (pts : Nat → Point)
    (v : Nat) :
    copy_solution mesh X pts v = if v < mesh.n_vertices then X.row v else pts v := by
  have key : ∀ (L : List Nat) (p : Nat → Point),
      L.foldl (fun pts v => assign pts v (X.row v)) p v =
        if v ∈ L then X.row v else p v := by
    intro L
    induction L with
    | nil => intro p; simp
    | cons x xs ih =>
      intro p
      rw [List.foldl_cons, ih]
      by_cases hx : v ∈ xs
      · simp [hx]
      · by_cases hvx : v = x
        · simp [hx, hvx, assign]
        · simp [hx, hvx, assign]
  unfold copy_solution
  rw [key]
  simp [mem_vertices]

theorem initial_guess_rows (mesh : SurfaceMesh) (pts : Nat → Point) :
    (initial_guess mesh pts).rows = mesh.n_vertices := by
  have key : ∀ (L : List Nat) (X : DenseMatrix),
      (L.foldl (fun X v => X.set_row v (pts v)) X).rows = X.rows := by
    intro L
    induction L with
    | nil => intro X; rfl
    | cons x xs ih => intro X; rw [List.foldl_cons, ih]; rfl
  unfold initial_guess
  rw [key]

theorem initial_guess_row (mesh : SurfaceMesh) (pts : Nat → Point) (v : Nat)
    (hv : v < mesh.n_vertices) : (initial_guess mesh pts).row v = pts v := by
  have key : ∀ (L : List Nat) (X : DenseMatrix),
      (L.foldl (fun X v => X.set_row v (pts v)) X).row v =
        if v ∈ L then pts v else X.row v := by
    intro L
    induction L with
    | nil => intro X; simp
    | cons x xs ih =>
      intro X
      rw [List.foldl_cons, ih]
      by_cases hx : v ∈ xs
      · simp [hx]
      · by_cases hvx : v = x
        · simp [hx, hvx, DenseMatrix.set_row]
        · simp [hx, hvx, DenseMatrix.set_row]
  unfold initial_guess
  rw [key, if_pos ((mem_vertices mesh v).mpr hv)]

/-- With a solver that pins the constrained rows, a successful call leaves
the position of every locked vertex as it was. -/
theorem fair_locked_fixed {Mat : Type} [Mul Mat] [Inv Mat] (ext : Laplace Mat)
    (mesh : SurfaceMesh) (k : Nat) (hpin : pins_constrained_rows ext.cholesky_solve)
    (hok : (fair ext mesh k).outcome = .ok ()) (v : Nat) (hv : v < mesh.n_vertices)
    (hl : locked_mask mesh k v = true) :
    (fair ext mesh k).mesh.points v = mesh.points v := by
  obtain ⟨h, X, hs⟩ := fair_ok_inv ext mesh k hok
  rw [fair_solver_ok ext mesh k X h hs]
  show copy_solution mesh X mesh.points v = mesh.points v
  rw [copy_solution_apply, if_pos hv]
  have hrow := hpin _ _ _ _ X hs v
    (by rw [initial_guess_rows]; exact hv) hl
  rw [hrow]
  exact initial_guess_row (attached mesh k) mesh.points v hv

theorem pin_solve_pins : pins_constrained_rows stand_in.cholesky_solve := by
  intro A B c C X h i _ hc
  simp only [stand_in, pin_solve, Except.ok.injEq] at h
  subst h
  simp [hc]

theorem nothing_selected_of_absent (mesh : SurfaceMesh)
    (h : mesh.get_vertex_property "v:selected" = none) : nothing_selected mesh := by
  intro sel hsel
  rw [h] at hsel
  cases hsel

theorem boundary_locked (mesh : SurfaceMesh) (k v : Nat) (hv : v < mesh.n_vertices)
    (hb : mesh.is_boundary v = true) : locked_mask mesh k v = true :=
  (locked_mask_iff mesh k v).mpr (Or.inl ⟨v, hv, hb, Or.inl rfl⟩)

theorem isolated_locked (mesh : SurfaceMesh) (k v : Nat) (hv : v < mesh.n_vertices)
    (hi : mesh.is_isolated v = true) : locked_mask mesh k v = true :=
  (locked_mask_iff mesh k v).mpr (Or.inr ⟨hv, Or.inr hi⟩)

/-- Every failure of `fair` is the precondition violation with nothing
locked, or the exception of the solver with something locked. -/
theorem fair_error_inv {Mat : Type} [Mul Mat] [Inv Mat] (ext : Laplace Mat)
    (mesh : SurfaceMesh) (k : Nat) (e : Exception)
    (herr : (fair ext mesh k).outcome = .error e) :
    ((∀ v, v < mesh.n_vertices → locked_mask mesh k v = false) ∧
        e = missing_boundary_constraints) ∨
      ((¬ ∀ v, v < mesh.n_vertices → locked_mask mesh k v = false) ∧
        ∃ what, solver_call ext mesh k = .error what ∧ e = .SolverException what) := by
  by_cases h : ∀ v, v < mesh.n_vertices → locked_mask mesh k v = false
  · rw [fair_nothing_locked ext mesh k h] at herr
    exact Or.inl ⟨h, (Except.error.inj herr).symm⟩
  · refine Or.inr ⟨h, ?_⟩
    cases hs : solver_call ext mesh k with
    | error what =>
      rw [fair_solver_error ext mesh k what h hs] at herr
      exact ⟨what, rfl, (Except.error.inj herr).symm⟩
    | ok X =>
      rw [fair_solver_ok ext mesh k X h hs] at herr
      cases herr

theorem foldl_const_mul {Mat : Type} [Monoid Mat] (c : Mat) :
    ∀ (L : List Nat) (A : Mat), L.foldl (fun A _ => c * A) A = c ^ L.length * A := by
  intro L
  induction L with
  | nil => intro A; simp
  | cons x xs ih =>
    intro A
    rw [List.foldl_cons, ih, List.length_cons, pow_succ, mul_assoc]

theorem compose_operator_eq {Mat : Type} [Monoid Mat] (S invM : Mat) (k : Nat) :
    compose_operator S invM k = (S * invM) ^ (k - 1) * S := by
  unfold compose_operator
  rw [foldl_const_mul (S * invM), List.length_range']

/-- The locked mask is determined by the number of vertices, the boundary
and isolation flags, the one-rings and the selection attribute. -/
theorem locked_mask_congr (mesh mesh2 : SurfaceMesh) (k : Nat)
    (hn : mesh2.n_vertices = mesh.n_vertices)
    (hb : mesh2.is_boundary = mesh.is_boundary)
    (hi : mesh2.is_isolated = mesh.is_isolated)
    (hr : mesh2.vertices_around = mesh.vertices_around)
    (hs : mesh2.get_vertex_property "v:selected" =
      mesh.get_vertex_property "v:selected") :
    locked_mask mesh2 k = locked_mask mesh k := by
  funext u
  rw [Bool.eq_iff_iff, locked_mask_iff, locked_mask_iff]
  unfold ring_locked
  rw [hn, hb, hi, hr, hs]

theorem ring_locked_mono (mesh : SurfaceMesh) (k k2 v u : Nat) (hk : k ≤ k2)
    (h : ring_locked mesh k v u) : ring_locked mesh k2 v u := by
  obtain ⟨hb, h⟩ := h
  refine ⟨hb, ?_⟩
  rcases h with h | ⟨h1, vv, hvv, h⟩
  · exact Or.inl h
  · refine Or.inr ⟨by omega, vv, hvv, ?_⟩
    rcases h with h | ⟨h2, h⟩
    · exact Or.inl h
    · exact Or.inr ⟨by omega, h⟩

theorem locked_mask_mono (mesh : SurfaceMesh) (k k2 u : Nat) (hk : k ≤ k2)
    (h : locked_mask mesh k u = true) : locked_mask mesh k2 u = true := by
  rw [locked_mask_iff] at h ⊢
  rcases h with ⟨v, hv, h⟩ | h
  · exact Or.inl ⟨v, hv, ring_locked_mono mesh k k2 v u hk h⟩
  · exact Or.inr h

/-- The mask in terms of the two comparisons the loop of lines 43-68 makes:
two orders that agree on `k > 1` and on `k > 2` give the same mask. -/
theorem locked_mask_eq_of_tests (mesh : SurfaceMesh) (k k2 : Nat)
    (h1 : 1 < k ↔ 1 < k2) (h2 : 2 < k ↔ 2 < k2) :
    locked_mask mesh k = locked_mask mesh k2 := by
  funext u
  rw [Bool.eq_iff_iff, locked_mask_iff, locked_mask_iff]
  unfold ring_locked
  simp only [h1, h2]

/-- The precondition violation leaves `fair` exactly when no vertex is
locked. -/
theorem missing_constraints_iff {Mat : Type} [Mul Mat] [Inv Mat] (ext : Laplace Mat)
    (mesh : SurfaceMesh) (k : Nat) :
    (fair ext mesh k).outcome = .error missing_boundary_constraints ↔
      ∀ v, v < mesh.n_vertices → locked_mask mesh k v = false := by
  constructor
  · intro herr
    rcases fair_error_inv ext mesh k _ herr with ⟨h, _⟩ | ⟨_, what, _, he⟩
    · exact h
    · cases he
  · intro h
    rw [fair_nothing_locked ext mesh k h]

theorem initial_guess_congr (mesh mesh2 : SurfaceMesh) (pts : Nat → Point)
    (hn : mesh2.n_vertices = mesh.n_vertices) :
    initial_guess mesh2 pts = initial_guess mesh pts := by
  unfold initial_guess SurfaceMesh.vertices
  rw [hn]

theorem initial_guess_row_eq (mesh : SurfaceMesh) (pts : Nat → Point) (v : Nat) :
    (initial_guess mesh pts).row v = if v < mesh.n_vertices then pts v else 0 := by
  have key : ∀ (L : List Nat) (X : DenseMatrix),
      (L.foldl (fun X v => X.set_row v (pts v)) X).row v =
        if v ∈ L then pts v else X.row v := by
    intro L
    induction L with
    | nil => intro X; simp
    | cons x xs ih =>
      intro X
      rw [List.foldl_cons, ih]
      by_cases hx : v ∈ xs
      · simp [hx]
      · by_cases hvx : v = x
        · simp [hx, hvx, DenseMatrix.set_row]
        · simp [hx, hvx, DenseMatrix.set_row]
  unfold initial_guess
  rw [key]
  simp [mem_vertices]

/-! ## The locked mask -/

/-- Claim C1: for a vertex `u` of the mesh, the mask `fair` computes locks
`u` if and only if (1) `u` is a boundary vertex, or (2) `k ≥ 2` and `u` is in
the one-ring of a boundary vertex, or (3) `k ≥ 3` and `u` is in the one-ring
of a vertex of the one-ring of a boundary vertex, or (4) the selection
attribute exists, some vertex is selected and `u` is not, or (5) `u` is
isolated. -/
theorem locked_mask_characterisation (mesh : SurfaceMesh) (k u : Nat)
    (hu : u < mesh.n_vertices) :
    locked_mask mesh k u = true ↔
      mesh.is_boundary u = true ∨
      (2 ≤ k ∧ ∃ v, v < mesh.n_vertices ∧ mesh.is_boundary v = true ∧
        u ∈ mesh.vertices_around v) ∨
      (3 ≤ k ∧ ∃ v, v < mesh.n_vertices ∧ mesh.is_boundary v = true ∧
        ∃ vv ∈ mesh.vertices_around v, u ∈ mesh.vertices_around vv) ∨
      (∃ sel, mesh.get_vertex_property "v:selected" = some sel ∧
        (∃ w, w < mesh.n_vertices ∧ sel w = true) ∧ sel u = false) ∨
      mesh.is_isolated u = true := by
  rw [locked_mask_iff]
  unfold ring_locked
  constructor
  · rintro (⟨v, hv, hb, h⟩ | ⟨_, h | h⟩)
    · rcases h with rfl | ⟨hk, vv, hvv, h⟩
      · exact Or.inl hb
      · rcases h with rfl | ⟨hk3, h⟩
        · exact Or.inr (Or.inl ⟨hk, v, hv, hb, hvv⟩)
        · exact Or.inr (Or.inr (Or.inl ⟨hk3, v, hv, hb, vv, hvv, h⟩))
    · exact Or.inr (Or.inr (Or.inr (Or.inl h)))
    · exact Or.inr (Or.inr (Or.inr (Or.inr h)))
  · rintro (h | ⟨hk, v, hv, hb, h⟩ | ⟨hk, v, hv, hb, vv, hvv, h⟩ | h | h)
    · exact Or.inl ⟨u, hu, h, Or.inl rfl⟩
    · exact Or.inl ⟨v, hv, hb, Or.inr ⟨hk, u, h, Or.inl rfl⟩⟩
    · exact Or.inl ⟨v, hv, hb, Or.inr ⟨by omega, vv, hvv, Or.inr ⟨hk, h⟩⟩⟩
    · exact Or.inr ⟨hu, Or.inl h⟩
    · exact Or.inr ⟨hu, Or.inr h⟩

/-- The characterisation of claim C1 at the apex of the pyramid with the
apex and a base vertex selected, order 2: the apex is in the one-ring of the
boundary. -/
theorem locked_mask_characterisation_witness :
    0 < pyramid_selected.n_vertices ∧
    (locked_mask pyramid_selected 2 0 = true ↔
      pyramid_selected.is_boundary 0 = true ∨
      (2 ≤ 2 ∧ ∃ v, v < pyramid_selected.n_vertices ∧
        pyramid_selected.is_boundary v = true ∧
        0 ∈ pyramid_selected.vertices_around v) ∨
      (3 ≤ 2 ∧ ∃ v, v < pyramid_selected.n_vertices ∧
        pyramid_selected.is_boundary v = true ∧
        ∃ vv ∈ pyramid_selected.vertices_around v,
          0 ∈ pyramid_selected.vertices_around vv) ∨
      (∃ sel, pyramid_selected.get_vertex_property "v:selected" = some sel ∧
        (∃ w, w < pyramid_selected.n_vertices ∧ sel w = true) ∧ sel 0 = false) ∨
      pyramid_selected.is_isolated 0 = true) :=
  ⟨by decide, locked_mask_characterisation pyramid_selected 2 0 (by decide)⟩

/-! ## The precondition check -/

/-- Claim C2: `fair` fails with the precondition violation
(`InvalidInputException`, "Missing boundary constraints") if and only if no
vertex ends up locked; in that case its only calls are the creation and the
removal of the locked attribute, and the whole result is the same whatever
the assembly routines and the solver are (they are not reached); in
particular `fair` fails with the precondition violation on every mesh with
no boundary vertex, no selected vertex and no isolated vertex, the mesh
without vertices included. -/
theorem precondition_violation_iff {Mat : Type} [Mul Mat] [Inv Mat] (ext : Laplace Mat)
    (mesh : SurfaceMesh) (k : Nat) :
    ((fair ext mesh k).outcome = .error missing_boundary_constraints ↔
      ∀ v, v < mesh.n_vertices → locked_mask mesh k v = false) ∧
    ((∀ v, v < mesh.n_vertices → locked_mask mesh k v = false) →
      (fair ext mesh k).calls =
          [.add_vertex_property "fairing:locked",
           .remove_vertex_property "fairing:locked"] ∧
        ∀ (Mat2 : Type) [Mul Mat2] [Inv Mat2] (ext2 : Laplace Mat2),
          fair ext2 mesh k = fair ext mesh k) ∧
    ((∀ v, v < mesh.n_vertices → mesh.is_boundary v = false) →
      nothing_selected mesh →
      (∀ v, v < mesh.n_vertices → mesh.is_isolated v = false) →
      (fair ext mesh k).outcome = .error missing_boundary_constraints) := by
  refine ⟨⟨?_, ?_⟩, ?_, ?_⟩
  · intro herr
    rcases fair_error_inv ext mesh k _ herr with ⟨h, _⟩ | ⟨_, what, _, he⟩
    · exact h
    · cases he
  · intro h
    rw [fair_nothing_locked ext mesh k h]
  · intro h
    refine ⟨by rw [fair_nothing_locked ext mesh k h], ?_⟩
    intro Mat2 _ _ ext2
    rw [fair_nothing_locked ext mesh k h, fair_nothing_locked ext2 mesh k h]
  · intro hb hsel hiso
    have h : ∀ v, v < mesh.n_vertices → locked_mask mesh k v = false := by
      intro u hu
      rw [← Bool.not_eq_true, locked_mask_iff]
      rintro (⟨v, hv, hbv, _⟩ | ⟨_, ⟨sel, hs, ⟨w, hw, hsw⟩, _⟩ | hi⟩)
      · rw [hb v hv] at hbv
        cases hbv
      · rw [hsel sel hs w hw] at hsw
        cases hsw
      · rw [hiso u hu] at hi
        cases hi
    rw [fair_nothing_locked ext mesh k h]

/-- Claim C2 on the closed tetrahedron (order 3) and on the mesh without
vertices: no boundary, no selection, no isolated vertex, and `fair` fails
with the precondition violation. -/
theorem precondition_violation_witness :
    (fair stand_in tetrahedron 3).outcome = .error missing_boundary_constraints ∧
    (fair stand_in empty_mesh 1).outcome = .error missing_boundary_constraints :=
  ⟨(precondition_violation_iff stand_in tetrahedron 3).2.2 (by decide)
      (nothing_selected_of_absent tetrahedron rfl) (by decide),
   (precondition_violation_iff stand_in empty_mesh 1).2.2 (by decide)
      (nothing_selected_of_absent empty_mesh rfl) (by decide)⟩

/-! ## Locked vertices keep their position -/

/-- Claim C3: when `fair` returns and the solver returns for every pinned
row the row of the initial guess, every locked vertex has the position it
had before the call; the solver was called with the locked mask as pin
predicate and with an initial guess whose row `v` is the position of `v`,
and the position of `v` after the call is row `v` of its solution. -/
theorem locked_positions_preserved {Mat : Type} [Mul Mat] [Inv Mat] (ext : Laplace Mat)
    (mesh : SurfaceMesh) (k : Nat) (hpin : pins_constrained_rows ext.cholesky_solve)
    (hok : (fair ext mesh k).outcome = .ok ()) :
    (∀ v, v < mesh.n_vertices → locked_mask mesh k v = true →
      (fair ext mesh k).mesh.points v = mesh.points v) ∧
    (∀ v, v < mesh.n_vertices →
      (initial_guess (attached mesh k) mesh.points).row v = mesh.points v) ∧
    (∃ A B X, ext.cholesky_solve A B (locked_mask mesh k)
        (initial_guess (attached mesh k) mesh.points) = .ok X ∧
      ∀ v, v < mesh.n_vertices → (fair ext mesh k).mesh.points v = X.row v) := by
  refine ⟨fun v hv hl => fair_locked_fixed ext mesh k hpin hok v hv hl,
    fun v hv => initial_guess_row (attached mesh k) mesh.points v hv, ?_⟩
  obtain ⟨h, X, hs⟩ := fair_ok_inv ext mesh k hok
  refine ⟨_, _, X, hs, ?_⟩
  intro v hv
  rw [fair_solver_ok ext mesh k X h hs]
  show copy_solution mesh X mesh.points v = X.row v
  rw [copy_solution_apply, if_pos hv]

/-- Claim C3 on the pyramid, order 1: the call returns and the locked base
vertex `3` keeps its position. -/
theorem locked_positions_preserved_witness :
    pins_constrained_rows stand_in.cholesky_solve ∧
    (fair stand_in pyramid 1).outcome = .ok () ∧
    locked_mask pyramid 1 3 = true ∧
    (fair stand_in pyramid 1).mesh.points 3 = pyramid.points 3 :=
  ⟨pin_solve_pins, by decide, by decide,
   (locked_positions_preserved stand_in pyramid 1 pin_solve_pins (by decide)).1 3
     (by decide) (by decide)⟩

/-- Claim C4, as stated, fails: the mesh of a triangle and a closed
tetrahedron has a boundary and no selection, and `fair(mesh, 1)` fails when
the solver reports the singular reduced system. -/
theorem order_one_fails_on_singular_system :
    (∃ v, v < triangle_and_tetrahedron.n_vertices ∧
      triangle_and_tetrahedron.is_boundary v = true) ∧
    nothing_selected triangle_and_tetrahedron ∧
    (fair singular triangle_and_tetrahedron 1).outcome =
      .error (.SolverException "cholesky_solve: Failed to factorize linear system.") :=
  ⟨⟨0, by decide, by decide⟩,
   nothing_selected_of_absent triangle_and_tetrahedron rfl, by decide⟩

/-- Claim C4, amended: on a mesh with a non-empty boundary and no selection
`fair(mesh, 1)` passes the precondition check; it fails only when the
constrained solve fails, with the exception of the solver; and when it
returns, the solver pinning the constrained rows, every boundary vertex has
the position it had before the call. -/
theorem order_one_boundary_fixed {Mat : Type} [Mul Mat] [Inv Mat] (ext : Laplace Mat)
    (mesh : SurfaceMesh)
    (hb : ∃ v, v < mesh.n_vertices ∧ mesh.is_boundary v = true)
    (_hsel : nothing_selected mesh) :
    (fair ext mesh 1).outcome ≠ .error missing_boundary_constraints ∧
    (∀ e, (fair ext mesh 1).outcome = .error e →
      ∃ what, solver_call ext mesh 1 = .error what ∧ e = .SolverException what) ∧
    (pins_constrained_rows ext.cholesky_solve → (fair ext mesh 1).outcome = .ok () →
      ∀ v, v < mesh.n_vertices → mesh.is_boundary v = true →
        (fair ext mesh 1).mesh.points v = mesh.points v) := by
  obtain ⟨b, hbn, hbb⟩ := hb
  have hl : ¬ ∀ v, v < mesh.n_vertices → locked_mask mesh 1 v = false := by
    intro h
    have := h b hbn
    rw [boundary_locked mesh 1 b hbn hbb] at this
    cases this
  refine ⟨?_, ?_, ?_⟩
  · intro herr
    rcases fair_error_inv ext mesh 1 _ herr with ⟨h, _⟩ | ⟨_, what, _, he⟩
    · exact hl h
    · cases he
  · intro e herr
    rcases fair_error_inv ext mesh 1 _ herr with ⟨h, _⟩ | ⟨_, hw⟩
    · exact absurd h hl
    · exact hw
  · intro hpin hok v hv hbv
    exact fair_locked_fixed ext mesh 1 hpin hok v hv (boundary_locked mesh 1 v hv hbv)

/-- Claim C4, amended, on the pyramid: the call passes the precondition
check and the boundary vertex `2` keeps its position. -/
theorem order_one_boundary_fixed_witness :
    (∃ v, v < pyramid.n_vertices ∧ pyramid.is_boundary v = true) ∧
    nothing_selected pyramid ∧
    (fair stand_in pyramid 1).outcome ≠ .error missing_boundary_constraints ∧
    (fair stand_in pyramid 1).mesh.points 2 = pyramid.points 2 :=
  ⟨⟨1, by decide, by decide⟩, nothing_selected_of_absent pyramid rfl,
   (order_one_boundary_fixed stand_in pyramid ⟨1, by decide, by decide⟩
     (nothing_selected_of_absent pyramid rfl)).1,
   (order_one_boundary_fixed stand_in pyramid ⟨1, by decide, by decide⟩
     (nothing_selected_of_absent pyramid rfl)).2.2 pin_solve_pins (by decide) 2
     (by decide) (by decide)⟩

/-- Claim C5: every isolated vertex is locked, for every mesh, selection
state and order; and when `fair` returns, the solver pinning the constrained
rows, its position is the position it had before the call. -/
theorem isolated_vertex_locked_and_fixed {Mat : Type} [Mul Mat] [Inv Mat]
    (ext : Laplace Mat) (mesh : SurfaceMesh) (k v : Nat) (hv : v < mesh.n_vertices)
    (hiso : mesh.is_isolated v = true) :
    locked_mask mesh k v = true ∧
    (pins_constrained_rows ext.cholesky_solve → (fair ext mesh k).outcome = .ok () →
      (fair ext mesh k).mesh.points v = mesh.points v) :=
  ⟨isolated_locked mesh k v hv hiso,
   fun hpin hok => fair_locked_fixed ext mesh k hpin hok v hv (isolated_locked mesh k v hv hiso)⟩

/-- Claim C5 on the pyramid with the isolated vertex `5`, order 2: the
vertex is locked and keeps its position `(7, 7, 7)`. -/
theorem isolated_vertex_locked_and_fixed_witness :
    5 < pyramid_and_isolated.n_vertices ∧
    pyramid_and_isolated.is_isolated 5 = true ∧
    locked_mask pyramid_and_isolated 2 5 = true ∧
    (fair stand_in pyramid_and_isolated 2).outcome = .ok () ∧
    (fair stand_in pyramid_and_isolated 2).mesh.points 5 = (7, 7, 7) :=
  ⟨by decide, by decide,
   (isolated_vertex_locked_and_fixed stand_in pyramid_and_isolated 2 5
     (by decide) (by decide)).1,
   by decide,
   (isolated_vertex_locked_and_fixed stand_in pyramid_and_isolated 2 5
     (by decide) (by decide)).2 pin_solve_pins (by decide)⟩

/-! ## Selection -/

/-- Claim C6, as stated, fails for `k ≥ 2`: on the pyramid with the apex and
one base vertex selected (a proper non-empty subset), order 2, the apex is
selected, not on the boundary and not isolated, and it is locked, being in
the one-ring of the boundary. -/
theorem selected_interior_vertex_locked_at_order_two :
    (∃ sel, pyramid_selected.get_vertex_property "v:selected" = some sel ∧
      sel 0 = true ∧ sel 2 = false) ∧
    pyramid_selected.is_boundary 0 = false ∧
    pyramid_selected.is_isolated 0 = false ∧
    locked_mask pyramid_selected 2 0 = true :=
  ⟨⟨_, rfl, by decide, by decide⟩, by decide, by decide, by decide⟩

/-- Claim C6, amended: when a proper non-empty subset of the vertices is
selected, every unselected vertex is locked, whatever its boundary status,
and the free vertices are exactly the vertices that are selected, not on the
boundary, not isolated, and, for `k ≥ 2`, not in the one-ring of a boundary
vertex and, for `k ≥ 3`, not in the one-ring of a vertex of the one-ring of
a boundary vertex. -/
theorem free_vertices_under_selection (mesh : SurfaceMesh) (k : Nat) (sel : Nat → Bool)
    (hsel : mesh.get_vertex_property "v:selected" = some sel)
    (hne : ∃ w, w < mesh.n_vertices ∧ sel w = true)
    (_hproper : ∃ w, w < mesh.n_vertices ∧ sel w = false) :
    (∀ u, u < mesh.n_vertices → sel u = false → locked_mask mesh k u = true) ∧
    (∀ u, u < mesh.n_vertices →
      (locked_mask mesh k u = false ↔
        sel u = true ∧ mesh.is_boundary u = false ∧ mesh.is_isolated u = false ∧
        ¬ (2 ≤ k ∧ ∃ v, v < mesh.n_vertices ∧ mesh.is_boundary v = true ∧
            u ∈ mesh.vertices_around v) ∧
        ¬ (3 ≤ k ∧ ∃ v, v < mesh.n_vertices ∧ mesh.is_boundary v = true ∧
            ∃ vv ∈ mesh.vertices_around v, u ∈ mesh.vertices_around vv))) := by
  have hchar : ∀ u, u < mesh.n_vertices →
      (locked_mask mesh k u = true ↔
        mesh.is_boundary u = true ∨
        (2 ≤ k ∧ ∃ v, v < mesh.n_vertices ∧ mesh.is_boundary v = true ∧
          u ∈ mesh.vertices_around v) ∨
        (3 ≤ k ∧ ∃ v, v < mesh.n_vertices ∧ mesh.is_boundary v = true ∧
          ∃ vv ∈ mesh.vertices_around v, u ∈ mesh.vertices_around vv) ∨
        sel u = false ∨ mesh.is_isolated u = true) := by
    intro u hu
    rw [locked_mask_iff]
    unfold ring_locked
    constructor
    · rintro (⟨v, hv, hb, h⟩ | ⟨_, h | h⟩)
      · rcases h with rfl | ⟨hk, vv, hvv, h⟩
        · exact Or.inl hb
        · rcases h with rfl | ⟨hk3, h⟩
          · exact Or.inr (Or.inl ⟨hk, v, hv, hb, hvv⟩)
          · exact Or.inr (Or.inr (Or.inl ⟨hk3, v, hv, hb, vv, hvv, h⟩))
      · obtain ⟨sel2, hs2, _, hu2⟩ := h
        rw [hsel] at hs2
        cases hs2
        exact Or.inr (Or.inr (Or.inr (Or.inl hu2)))
      · exact Or.inr (Or.inr (Or.inr (Or.inr h)))
    · rintro (h | ⟨hk, v, hv, hb, h⟩ | ⟨hk, v, hv, hb, vv, hvv, h⟩ | h | h)
      · exact Or.inl ⟨u, hu, h, Or.inl rfl⟩
      · exact Or.inl ⟨v, hv, hb, Or.inr ⟨hk, u, h, Or.inl rfl⟩⟩
      · exact Or.inl ⟨v, hv, hb, Or.inr ⟨by omega, vv, hvv, Or.inr ⟨hk, h⟩⟩⟩
      · exact Or.inr ⟨hu, Or.inl ⟨sel, hsel, hne, h⟩⟩
      · exact Or.inr ⟨hu, Or.inr h⟩
  refine ⟨fun u hu hus => (hchar u hu).mpr (Or.inr (Or.inr (Or.inr (Or.inl hus)))), ?_⟩
  intro u hu
  rw [← Bool.not_eq_true, hchar u hu]
  simp only [not_or, Bool.not_eq_false, Bool.not_eq_true]
  tauto

/-- Claim C6, amended, on the pyramid with the apex and one base vertex
selected, order 1: the unselected vertex `2` is locked and the apex is
free. -/
theorem free_vertices_under_selection_witness :
    pyramid_selected.get_vertex_property "v:selected" = some (fun v => decide (v ≤ 1)) ∧
    (∃ w, w < pyramid_selected.n_vertices ∧ (fun v => decide (v ≤ 1)) w = true) ∧
    (∃ w, w < pyramid_selected.n_vertices ∧ (fun v => decide (v ≤ 1)) w = false) ∧
    locked_mask pyramid_selected 1 2 = true ∧
    locked_mask pyramid_selected 1 0 = false :=
  ⟨rfl, ⟨0, by decide, by decide⟩, ⟨2, by decide, by decide⟩,
   (free_vertices_under_selection pyramid_selected 1 (fun v => decide (v ≤ 1)) rfl
     ⟨0, by decide, by decide⟩ ⟨2, by decide, by decide⟩).1 2 (by decide) (by decide),
   ((free_vertices_under_selection pyramid_selected 1 (fun v => decide (v ≤ 1)) rfl
     ⟨0, by decide, by decide⟩ ⟨2, by decide, by decide⟩).2 0 (by decide)).mpr
     ⟨by decide, by decide, by decide, by decide, by decide⟩⟩

/-! ## Exit paths -/

/-- Claim C7 at the failing input: on the mesh of a triangle and a closed
tetrahedron, which does not carry `"fairing:locked"`, with a solver that
reports the singular system, `fair(mesh, 1)` leaves with the
`SolverException`, has not called `remove_vertex_property`, and the mesh
still carries `"fairing:locked"`. -/
theorem locked_attribute_left_after_solver_failure :
    triangle_and_tetrahedron.has_vertex_property "fairing:locked" = false ∧
    (fair singular triangle_and_tetrahedron 1).outcome =
      .error (.SolverException "cholesky_solve: Failed to factorize linear system.") ∧
    (fair singular triangle_and_tetrahedron 1).calls.count
      (.remove_vertex_property "fairing:locked") = 0 ∧
    (fair singular triangle_and_tetrahedron 1).mesh.has_vertex_property
      "fairing:locked" = true :=
  ⟨by decide, by decide, by decide, by decide⟩

/-- Claim C8: whenever `fair` fails, at the precondition check or with the
exception of the solver, every vertex position is the one before the call. -/
theorem positions_unchanged_on_failure {Mat : Type} [Mul Mat] [Inv Mat]
    (ext : Laplace Mat) (mesh : SurfaceMesh) (k : Nat) (e : Exception)
    (herr : (fair ext mesh k).outcome = .error e) :
    (fair ext mesh k).mesh.points = mesh.points := by
  rcases fair_error_inv ext mesh k e herr with ⟨h, _⟩ | ⟨h, what, hs, _⟩
  · rw [fair_nothing_locked ext mesh k h]
  · rw [fair_solver_error ext mesh k what h hs]
    rfl

/-- Claim C8 on both failures: the precondition violation on the closed
tetrahedron and the failure of the solver on the mesh of a triangle and a
closed tetrahedron. -/
theorem positions_unchanged_on_failure_witness :
    (fair stand_in tetrahedron 2).outcome = .error missing_boundary_constraints ∧
    (fair stand_in tetrahedron 2).mesh.points = tetrahedron.points ∧
    (fair singular triangle_and_tetrahedron 1).outcome =
      .error (.SolverException "cholesky_solve: Failed to factorize linear system.") ∧
    (fair singular triangle_and_tetrahedron 1).mesh.points =
      triangle_and_tetrahedron.points :=
  ⟨by decide,
   positions_unchanged_on_failure stand_in tetrahedron 2
     missing_boundary_constraints (by decide),
   by decide,
   positions_unchanged_on_failure singular triangle_and_tetrahedron 1
     (.SolverException "cholesky_solve: Failed to factorize linear system.") (by decide)⟩

/-! ## The order -/

/-- Claim C9, as stated, fails: `fair(mesh, 0)` on the pyramid is not
rejected; it calls the solver, returns, and has moved the apex. -/
theorem order_zero_not_rejected :
    (fair stand_in pyramid 0).outcome = .ok () ∧
    Call.cholesky_solve ∈ (fair stand_in pyramid 0).calls ∧
    (fair stand_in pyramid 0).mesh.points 0 ≠ pyramid.points 0 :=
  ⟨by decide, by decide, by decide⟩

/-- Claim C9, amended: the order is not validated. `fair(mesh, 0)` fails
without modifying positions and without calling the solver exactly when no
vertex is locked, with the precondition violation; when some vertex is
locked it passes `A = S` to the solver, and fails only if the solver does. -/
theorem order_zero_not_validated {Mat : Type} [Mul Mat] [Inv Mat] (ext : Laplace Mat)
    (mesh : SurfaceMesh) :
    ((∀ v, v < mesh.n_vertices → locked_mask mesh 0 v = false) →
      (fair ext mesh 0).outcome = .error missing_boundary_constraints ∧
      (fair ext mesh 0).mesh.points = mesh.points ∧
      Call.cholesky_solve ∉ (fair ext mesh 0).calls) ∧
    ((∃ v, v < mesh.n_vertices ∧ locked_mask mesh 0 v = true) →
      Call.cholesky_solve ∈ (fair ext mesh 0).calls ∧
      (∀ e, (fair ext mesh 0).outcome = .error e →
        ∃ what, solver_call ext mesh 0 = .error what ∧ e = .SolverException what) ∧
      solver_call ext mesh 0 =
        ext.cholesky_solve (ext.setup_stiffness_matrix (attached mesh 0) false true)
          (ext.mul_dense (ext.setup_mass_matrix (attached mesh 0) false)
            (DenseMatrix.setZero mesh.n_vertices))
          (locked_mask mesh 0) (initial_guess (attached mesh 0) mesh.points)) := by
  constructor
  · intro h
    rw [fair_nothing_locked ext mesh 0 h]
    exact ⟨rfl, rfl, by simp⟩
  · rintro ⟨b, hb, hl⟩
    have hn : ¬ ∀ v, v < mesh.n_vertices → locked_mask mesh 0 v = false := by
      intro h
      rw [h b hb] at hl
      cases hl
    refine ⟨?_, ?_, rfl⟩
    · cases hs : solver_call ext mesh 0 with
      | error what => rw [fair_solver_error ext mesh 0 what hn hs]; simp
      | ok X => rw [fair_solver_ok ext mesh 0 X hn hs]; simp
    · intro e herr
      rcases fair_error_inv ext mesh 0 e herr with ⟨h, _⟩ | ⟨_, hw⟩
      · exact absurd h hn
      · exact hw

/-- Claim C9, amended, on the closed tetrahedron (nothing locked: the
precondition violation, positions kept) and on the pyramid (the boundary is
locked: the solver is called). -/
theorem order_zero_not_validated_witness :
    (fair stand_in tetrahedron 0).outcome = .error missing_boundary_constraints ∧
    (fair stand_in tetrahedron 0).mesh.points = tetrahedron.points ∧
    Call.cholesky_solve ∈ (fair stand_in pyramid 0).calls :=
  ⟨((order_zero_not_validated stand_in tetrahedron).1 (by decide)).1,
   ((order_zero_not_validated stand_in tetrahedron).1 (by decide)).2.1,
   ((order_zero_not_validated stand_in pyramid).2 ⟨1, by decide, by decide⟩).1⟩

/-- Claim C10: for `k ≥ 1`, with `S` the stiffness operator and `M` the mass
operator, the operator of lines 118-120 satisfies `A_1 = S` and
`A_{k+1} = S * M⁻¹ * A_k`, that is `A_k = (S * M⁻¹)^(k-1) * S`, with `k - 1`
compositions; and this is the operator `fair` passes to the solver. -/
theorem operator_recurrence {Mat : Type} [Monoid Mat] [Inv Mat] (S M : Mat) (k : Nat)
    (hk : 1 ≤ k) :
    compose_operator S M⁻¹ 1 = S ∧
    compose_operator S M⁻¹ (k + 1) = S * M⁻¹ * compose_operator S M⁻¹ k ∧
    compose_operator S M⁻¹ k = (S * M⁻¹) ^ (k - 1) * S ∧
    (∀ (ext : Laplace Mat) (mesh : SurfaceMesh),
      ext.setup_stiffness_matrix (attached mesh k) false true = S →
      ext.setup_mass_matrix (attached mesh k) false = M →
      solver_call ext mesh k =
        ext.cholesky_solve ((S * M⁻¹) ^ (k - 1) * S)
          (ext.mul_dense M (DenseMatrix.setZero mesh.n_vertices))
          (locked_mask mesh k) (initial_guess (attached mesh k) mesh.points)) := by
  refine ⟨?_, ?_, compose_operator_eq S M⁻¹ k, ?_⟩
  · rw [compose_operator_eq]
    simp
  · rw [compose_operator_eq, compose_operator_eq]
    obtain ⟨j, rfl⟩ : ∃ j, k = j + 1 := ⟨k - 1, by omega⟩
    simp only [Nat.add_sub_cancel]
    rw [pow_succ', mul_assoc]
  · intro ext mesh hS hM
    unfold solver_call
    rw [hS, hM, compose_operator_eq]

/-- Claim C10 at order 3 on rational scalars: `A_3 = (S * M⁻¹)^2 * S`. -/
theorem operator_recurrence_witness :
    1 ≤ 3 ∧ compose_operator (2 : ℚ) (4 : ℚ)⁻¹ 3 = (2 * (4 : ℚ)⁻¹) ^ (3 - 1) * 2 :=
  ⟨by decide, (operator_recurrence (2 : ℚ) 4 3 (by decide)).2.2.1⟩

/-! ## The order and the locked mask -/

/-- Claim C11: for every mesh and selection state the locked mask of any
order `k ≥ 3` is the locked mask of order 3; the ring expansion stops at the
two-ring of the boundary. -/
theorem locked_mask_capped_at_three (mesh : SurfaceMesh) (k : Nat) (hk : 3 ≤ k) :
    locked_mask mesh k = locked_mask mesh 3 :=
  locked_mask_eq_of_tests mesh k 3
    ⟨fun _ => by decide, fun _ => by omega⟩ ⟨fun _ => by decide, fun _ => by omega⟩

/-- Claim C11 on the pyramid at order 7. -/
theorem locked_mask_capped_at_three_witness :
    3 ≤ 7 ∧ locked_mask pyramid 7 = locked_mask pyramid 3 :=
  ⟨by decide, locked_mask_capped_at_three pyramid 7 (by decide)⟩

/-- Claim C17: the locked mask is monotone in the order: for `k ≤ k2` every
vertex locked at order `k` is locked at order `k2`, and if `fair` passes the
precondition check at order `k` it passes it at order `k2`. -/
theorem locked_mask_monotone {Mat : Type} [Mul Mat] [Inv Mat] (ext : Laplace Mat)
    (mesh : SurfaceMesh) (k k2 : Nat) (hk : k ≤ k2) :
    (∀ u, locked_mask mesh k u = true → locked_mask mesh k2 u = true) ∧
    ((fair ext mesh k).outcome ≠ .error missing_boundary_constraints →
      (fair ext mesh k2).outcome ≠ .error missing_boundary_constraints) := by
  refine ⟨fun u h => locked_mask_mono mesh k k2 u hk h, ?_⟩
  intro hpass herr
  apply hpass
  rcases fair_error_inv ext mesh k2 _ herr with ⟨h, _⟩ | ⟨_, what, _, he⟩
  · have hk0 : ∀ v, v < mesh.n_vertices → locked_mask mesh k v = false := by
      intro v hv
      rw [← Bool.not_eq_true]
      intro hl
      have hl2 := locked_mask_mono mesh k k2 v hk hl
      rw [h v hv] at hl2
      cases hl2
    rw [fair_nothing_locked ext mesh k hk0]
  · cases he

/-- Claim C17 on the pyramid, orders 1 and 2: the base vertex `3`, locked at
order 1, is locked at order 2, and the call passes the precondition check at
order 2. -/
theorem locked_mask_monotone_witness :
    1 ≤ 2 ∧ locked_mask pyramid 2 3 = true ∧
    (fair stand_in pyramid 2).outcome ≠ .error missing_boundary_constraints :=
  ⟨by decide,
   (locked_mask_monotone stand_in pyramid 1 2 (by decide)).1 3 (by decide),
   (locked_mask_monotone stand_in pyramid 1 2 (by decide)).2 (by decide)⟩

/-- Claim C16: `fair(mesh, 0)` is `fair(mesh, 1)`: the same locked mask
(boundary vertices without ring expansion, unselected and isolated
vertices), the same operator `A = S`, and the same result: outcome, final
mesh and calls. -/
theorem order_zero_is_order_one {Mat : Type} [Mul Mat] [Inv Mat] (ext : Laplace Mat)
    (mesh : SurfaceMesh) :
    locked_mask mesh 0 = locked_mask mesh 1 ∧
    (∀ u, u < mesh.n_vertices →
      (locked_mask mesh 0 u = true ↔
        mesh.is_boundary u = true ∨
        (∃ sel, mesh.get_vertex_property "v:selected" = some sel ∧
          (∃ w, w < mesh.n_vertices ∧ sel w = true) ∧ sel u = false) ∨
        mesh.is_isolated u = true)) ∧
    (∀ S invM : Mat, compose_operator S invM 0 = S ∧ compose_operator S invM 1 = S) ∧
    solver_call ext mesh 0 = solver_call ext mesh 1 ∧
    fair ext mesh 0 = fair ext mesh 1 := by
  have hmask : locked_mask mesh 0 = locked_mask mesh 1 :=
    locked_mask_eq_of_tests mesh 0 1 (by decide) (by decide)
  have hatt : attached mesh 0 = attached mesh 1 := by
    unfold attached
    rw [hmask]
  have hcall : solver_call ext mesh 0 = solver_call ext mesh 1 := by
    unfold solver_call
    rw [hmask, hatt]
    rfl
  refine ⟨hmask, ?_, fun S invM => ⟨rfl, rfl⟩, hcall, ?_⟩
  · intro u hu
    rw [locked_mask_iff]
    unfold ring_locked
    constructor
    · rintro (⟨v, hv, hb, h⟩ | ⟨_, h⟩)
      · rcases h with rfl | ⟨hk, _⟩
        · exact Or.inl hb
        · exact absurd hk (by decide)
      · exact Or.inr h
    · rintro (h | h | h)
      · exact Or.inl ⟨u, hu, h, Or.inl rfl⟩
      · exact Or.inr ⟨hu, Or.inl h⟩
      · exact Or.inr ⟨hu, Or.inr h⟩
  · rw [fair_eq, fair_eq, hmask, hatt, hcall]

/-- Claim C13: `minimize_area(mesh)` is `fair(mesh, 1)`: the same outcome
(it fails exactly when `fair(mesh, 1)` fails, with the same exception), the
same final mesh and the same calls. -/
theorem minimize_area_is_fair_order_one {Mat : Type} [Mul Mat] [Inv Mat]
    (ext : Laplace Mat) (mesh : SurfaceMesh) :
    minimize_area ext mesh = fair ext mesh 1 ∧
    (minimize_area ext mesh).outcome = (fair ext mesh 1).outcome ∧
    (minimize_area ext mesh).mesh = (fair ext mesh 1).mesh :=
  ⟨rfl, rfl, rfl⟩

/-- Claim C14: `minimize_curvature(mesh)` is `fair(mesh, 2)`: the same
outcome (it fails exactly when `fair(mesh, 2)` fails, with the same
exception), the same final mesh and the same calls. -/
theorem minimize_curvature_is_fair_order_two {Mat : Type} [Mul Mat] [Inv Mat]
    (ext : Laplace Mat) (mesh : SurfaceMesh) :
    minimize_curvature ext mesh = fair ext mesh 2 ∧
    (minimize_curvature ext mesh).outcome = (fair ext mesh 2).outcome ∧
    (minimize_curvature ext mesh).mesh = (fair ext mesh 2).mesh :=
  ⟨rfl, rfl, rfl⟩

/-! ## What the mask and the call depend on -/

/-- Claim C18: the locked mask and the outcome of the precondition check do
not depend on the vertex positions: two meshes with the same vertices,
boundary and isolation flags, one-rings and selection attribute have the
same locked mask, and `fair` raises the precondition violation on one
exactly when it raises it on the other. -/
theorem mask_independent_of_positions {Mat : Type} [Mul Mat] [Inv Mat]
    (ext : Laplace Mat) (mesh mesh2 : SurfaceMesh) (k : Nat)
    (hn : mesh2.n_vertices = mesh.n_vertices)
    (hb : mesh2.is_boundary = mesh.is_boundary)
    (hi : mesh2.is_isolated = mesh.is_isolated)
    (hr : mesh2.vertices_around = mesh.vertices_around)
    (hs : mesh2.get_vertex_property "v:selected" =
      mesh.get_vertex_property "v:selected") :
    locked_mask mesh2 k = locked_mask mesh k ∧
    ((fair ext mesh2 k).outcome = .error missing_boundary_constraints ↔
      (fair ext mesh k).outcome = .error missing_boundary_constraints) := by
  have hmask := locked_mask_congr mesh mesh2 k hn hb hi hr hs
  refine ⟨hmask, ?_⟩
  rw [missing_constraints_iff, missing_constraints_iff, hmask, hn]

/-- Claim C18 on the pyramid and the pyramid with every vertex moved. -/
theorem mask_independent_of_positions_witness :
    pyramid_moved.n_vertices = pyramid.n_vertices ∧
    pyramid_moved.is_boundary = pyramid.is_boundary ∧
    pyramid_moved.is_isolated = pyramid.is_isolated ∧
    pyramid_moved.vertices_around = pyramid.vertices_around ∧
    pyramid_moved.get_vertex_property "v:selected" =
      pyramid.get_vertex_property "v:selected" ∧
    pyramid_moved.points 0 ≠ pyramid.points 0 ∧
    locked_mask pyramid_moved 2 = locked_mask pyramid 2 :=
  ⟨rfl, rfl, rfl, rfl, rfl, by decide,
   (mask_independent_of_positions stand_in pyramid pyramid_moved 2 rfl rfl rfl rfl rfl).1⟩

/-- Claim C12: a selection attribute with no vertex selected has no effect.
For a mesh carrying such an attribute and a mesh with the same vertices,
flags, one-rings and positions without the attribute: the locked masks are
equal, no vertex is locked for being unselected (the mask is the boundary
rings and the isolated vertices), `fair` raises the precondition violation
on one exactly when it does on the other, and the solver gets the same pin
predicate and initial guess, and the same call when the assembly routines
give the same operators for both. -/
theorem empty_selection_has_no_effect {Mat : Type} [Mul Mat] [Inv Mat]
    (ext : Laplace Mat) (mesh absent : SurfaceMesh) (k : Nat) (sel : Nat → Bool)
    (hn : absent.n_vertices = mesh.n_vertices)
    (hb : absent.is_boundary = mesh.is_boundary)
    (hi : absent.is_isolated = mesh.is_isolated)
    (hr : absent.vertices_around = mesh.vertices_around)
    (hp : absent.points = mesh.points)
    (hsel : mesh.get_vertex_property "v:selected" = some sel)
    (hempty : ∀ v, v < mesh.n_vertices → sel v = false)
    (habs : absent.get_vertex_property "v:selected" = none) :
    locked_mask mesh k = locked_mask absent k ∧
    (∀ u, u < mesh.n_vertices →
      (locked_mask mesh k u = true ↔
        mesh.is_boundary u = true ∨
        (2 ≤ k ∧ ∃ v, v < mesh.n_vertices ∧ mesh.is_boundary v = true ∧
          u ∈ mesh.vertices_around v) ∨
        (3 ≤ k ∧ ∃ v, v < mesh.n_vertices ∧ mesh.is_boundary v = true ∧
          ∃ vv ∈ mesh.vertices_around v, u ∈ mesh.vertices_around vv) ∨
        mesh.is_isolated u = true)) ∧
    ((fair ext mesh k).outcome = .error missing_boundary_constraints ↔
      (fair ext absent k).outcome = .error missing_boundary_constraints) ∧
    initial_guess (attached mesh k) mesh.points =
      initial_guess (attached absent k) absent.points ∧
    (ext.setup_stiffness_matrix (attached mesh k) false true =
        ext.setup_stiffness_matrix (attached absent k) false true →
      ext.setup_mass_matrix (attached mesh k) false =
        ext.setup_mass_matrix (attached absent k) false →
      solver_call ext mesh k = solver_call ext absent k) := by
  have hnosel : ∀ u, ¬ ∃ s, mesh.get_vertex_property "v:selected" = some s ∧
      (∃ w, w < mesh.n_vertices ∧ s w = true) ∧ s u = false := by
    rintro u ⟨s, hs, ⟨w, hw, hsw⟩, _⟩
    rw [hsel] at hs
    cases hs
    rw [hempty w hw] at hsw
    cases hsw
  have hmask : locked_mask mesh k = locked_mask absent k := by
    funext u
    rw [Bool.eq_iff_iff, locked_mask_iff, locked_mask_iff]
    unfold ring_locked
    rw [hn, hb, hi, hr, habs]
    simp only [hnosel u, false_or]
    simp
  have hguess : initial_guess (attached mesh k) mesh.points =
      initial_guess (attached absent k) absent.points := by
    rw [hp]
    exact (initial_guess_congr (attached mesh k) (attached absent k) mesh.points hn).symm
  refine ⟨hmask, ?_, ?_, hguess, ?_⟩
  · intro u hu
    rw [locked_mask_iff]
    unfold ring_locked
    constructor
    · rintro (⟨v, hv, hbv, h⟩ | ⟨_, h | h⟩)
      · rcases h with rfl | ⟨hk, vv, hvv, h⟩
        · exact Or.inl hbv
        · rcases h with rfl | ⟨hk3, h⟩
          · exact Or.inr (Or.inl ⟨hk, v, hv, hbv, hvv⟩)
          · exact Or.inr (Or.inr (Or.inl ⟨hk3, v, hv, hbv, vv, hvv, h⟩))
      · exact absurd h (hnosel u)
      · exact Or.inr (Or.inr (Or.inr h))
    · rintro (h | ⟨hk, v, hv, hbv, h⟩ | ⟨hk, v, hv, hbv, vv, hvv, h⟩ | h)
      · exact Or.inl ⟨u, hu, h, Or.inl rfl⟩
      · exact Or.inl ⟨v, hv, hbv, Or.inr ⟨hk, u, h, Or.inl rfl⟩⟩
      · exact Or.inl ⟨v, hv, hbv, Or.inr ⟨by omega, vv, hvv, Or.inr ⟨hk, h⟩⟩⟩
      · exact Or.inr ⟨hu, Or.inr h⟩
  · rw [missing_constraints_iff, missing_constraints_iff, hmask, hn]
  · intro hS hM
    unfold solver_call
    rw [hS, hM, hmask, hguess, hn]

/-- Claim C12 on the pyramid with an attribute `"v:selected"` that selects
nothing, against the pyramid without the attribute, order 2. -/
theorem empty_selection_has_no_effect_witness :
    pyramid_nothing_selected.get_vertex_property "v:selected" = some (fun _ => false) ∧
    pyramid.get_vertex_property "v:selected" = none ∧
    locked_mask pyramid_nothing_selected 2 = locked_mask pyramid 2 ∧
    solver_call stand_in pyramid_nothing_selected 2 = solver_call stand_in pyramid 2 :=
  ⟨rfl, rfl,
   (empty_selection_has_no_effect stand_in pyramid_nothing_selected pyramid 2
     (fun _ => false) rfl rfl rfl rfl rfl rfl (fun _ _ => rfl) rfl).1,
   (empty_selection_has_no_effect stand_in pyramid_nothing_selected pyramid 2
     (fun _ => false) rfl rfl rfl rfl rfl rfl (fun _ _ => rfl) rfl).2.2.2.2 rfl rfl⟩

/-- Claim C19: when `fair` returns, on a mesh that carried no attribute
`"fairing:locked"`, the mesh differs from the mesh before the call in the
positions only: the vertices, the boundary and isolation flags, the
one-rings and the attribute table (names and arrays, the selection flags
among them) are the same, and the table still has no `"fairing:locked"`;
when `fair` fails at the precondition check the mesh is the mesh before the
call, positions included. -/
theorem fair_frame {Mat : Type} [Mul Mat] [Inv Mat] (ext : Laplace Mat)
    (mesh : SurfaceMesh) (k : Nat)
    (hfresh : mesh.has_vertex_property "fairing:locked" = false) :
    ((fair ext mesh k).outcome = .ok () →
      (fair ext mesh k).mesh.n_vertices = mesh.n_vertices ∧
      (fair ext mesh k).mesh.is_boundary = mesh.is_boundary ∧
      (fair ext mesh k).mesh.is_isolated = mesh.is_isolated ∧
      (fair ext mesh k).mesh.vertices_around = mesh.vertices_around ∧
      (fair ext mesh k).mesh.vprops = mesh.vprops ∧
      (fair ext mesh k).mesh.get_vertex_property "v:selected" =
        mesh.get_vertex_property "v:selected" ∧
      (fair ext mesh k).mesh.has_vertex_property "fairing:locked" = false) ∧
    ((fair ext mesh k).outcome = .error missing_boundary_constraints →
      (fair ext mesh k).mesh = mesh) := by
  constructor
  · intro hok
    obtain ⟨h, X, hs⟩ := fair_ok_inv ext mesh k hok
    rw [fair_solver_ok ext mesh k X h hs]
    exact ⟨rfl, rfl, rfl, rfl, rfl, rfl, hfresh⟩
  · intro herr
    rw [fair_nothing_locked ext mesh k ((missing_constraints_iff ext mesh k).mp herr)]

/-- Claim C19 on the pyramid with a selection (the call returns, the
attribute table is the one before the call) and on the closed tetrahedron
(the precondition violation, the mesh is the one before the call). -/
theorem fair_frame_witness :
    pyramid_selected.has_vertex_property "fairing:locked" = false ∧
    (fair stand_in pyramid_selected 1).outcome = .ok () ∧
    (fair stand_in pyramid_selected 1).mesh.vprops = pyramid_selected.vprops ∧
    tetrahedron.has_vertex_property "fairing:locked" = false ∧
    (fair stand_in tetrahedron 1).mesh = tetrahedron :=
  ⟨by decide, by decide,
   ((fair_frame stand_in pyramid_selected 1 (by decide)).1 (by decide)).2.2.2.2.1,
   by decide,
   (fair_frame stand_in tetrahedron 1 (by decide)).2 (by decide)⟩

/-! ## A second call -/

theorem pin_solve_determined : determined_by_pinned_rows stand_in.cholesky_solve := by
  intro A B c C C2 _ hpinned
  have hfun : (fun i => if c i = true then C2.row i else B.row i) =
      (fun i => if c i = true then C.row i else B.row i) := by
    funext i
    by_cases hc : c i = true
    · simp [hc, hpinned i hc]
    · simp [hc]
  simp only [stand_in, pin_solve, hfun]

theorem saddle_mask (p : Point) : locked_mask (saddle_at p) 1 = locked_mask pyramid 1 :=
  locked_mask_congr pyramid (saddle_at p) 1 rfl rfl rfl rfl rfl

theorem sqrt_625 : Rat.sqrt 625 = 25 := by
  rw [show (625 : ℚ) = 25 * 25 by norm_num, Rat.sqrt_eq]
  norm_num

theorem sqrt_361 : Rat.sqrt 361 = 19 := by
  rw [show (361 : ℚ) = 19 * 19 by norm_num, Rat.sqrt_eq]
  norm_num

theorem mul_dense_zero (M : SquareMatrix) (n i : Nat) :
    (mul_dense M (DenseMatrix.setZero n)).row i = 0 := by
  have key : ∀ L : List Nat,
      (L.map (fun l => scale (M.entry i l) ((DenseMatrix.setZero n).row l))).sum = 0 := by
    intro L
    induction L with
    | nil => rfl
    | cons x xs ih =>
      rw [List.map_cons, List.sum_cons, ih]
      simp [scale, DenseMatrix.setZero]
  exact key _

/-- The constrained solve on five rows of which only row `0` is free. -/
theorem fan_solve (A : SquareMatrix) (B C : DenseMatrix) (c : Nat → Bool)
    (hrows : C.rows = 5) (h0 : c 0 = false) (h1 : c 1 = true) (h2 : c 2 = true)
    (h3 : c 3 = true) (h4 : c 4 = true) (hA : A.entry 0 0 ≠ 0) :
    ∃ X, decoupled_solve A B c C = .ok X ∧
      X.row 0 = scale (A.entry 0 0)⁻¹ (B.row 0 -
        (scale (A.entry 0 1) (C.row 1) + scale (A.entry 0 2) (C.row 2) +
          scale (A.entry 0 3) (C.row 3) + scale (A.entry 0 4) (C.row 4))) ∧
      ∀ v, 1 ≤ v → v < 5 → X.row v = C.row v := by
  have hr : List.range 5 = [0, 1, 2, 3, 4] := rfl
  unfold decoupled_solve
  rw [hrows, hr, if_neg]
  · refine ⟨_, rfl, ?_, ?_⟩
    · simp [h0, h1, h2, h3, h4, pinned_part, hrows, hr, add_assoc]
    · intro v hv1 hv5
      interval_cases v <;> simp [h1, h2, h3, h4]
  · simp [h0, h1, h2, h3, h4, hA]

/-- The cotangent weights at the interior vertex of the saddle when it is at
`(0, 0, 2)`: every face has doubled area 25 and every weight is 1. -/
theorem saddle_weights_first :
    cot_weight pyramid_faces (saddle_at (0, 0, 2)) 0 1 = 1 ∧
    cot_weight pyramid_faces (saddle_at (0, 0, 2)) 0 2 = 1 ∧
    cot_weight pyramid_faces (saddle_at (0, 0, 2)) 0 3 = 1 ∧
    cot_weight pyramid_faces (saddle_at (0, 0, 2)) 0 4 = 1 := by
  refine ⟨?_, ?_, ?_, ?_⟩
  · norm_num [cot_weight, pyramid_faces, opposite, saddle_at, cotan, double_area,
      cross_norm2, vdot, vcross, sqrt_625]
  · norm_num [cot_weight, pyramid_faces, opposite, saddle_at, cotan, double_area,
      cross_norm2, vdot, vcross, sqrt_625]
  · norm_num [cot_weight, pyramid_faces, opposite, saddle_at, cotan, double_area,
      cross_norm2, vdot, vcross, sqrt_625]
  · norm_num [cot_weight, pyramid_faces, opposite, saddle_at, cotan, double_area,
      cross_norm2, vdot, vcross, sqrt_625]

/-- The cotangent weights at the interior vertex of the saddle when it is at
`(0, 0, 0)`: every face has doubled area 19, the weights are 17/19 and
33/19. -/
theorem saddle_weights_second :
    cot_weight pyramid_faces (saddle_at (0, 0, 0)) 0 1 = 17 / 19 ∧
    cot_weight pyramid_faces (saddle_at (0, 0, 0)) 0 2 = 33 / 19 ∧
    cot_weight pyramid_faces (saddle_at (0, 0, 0)) 0 3 = 17 / 19 ∧
    cot_weight pyramid_faces (saddle_at (0, 0, 0)) 0 4 = 33 / 19 := by
  refine ⟨?_, ?_, ?_, ?_⟩
  · norm_num [cot_weight, pyramid_faces, opposite, saddle_at, cotan, double_area,
      cross_norm2, vdot, vcross, sqrt_361]
  · norm_num [cot_weight, pyramid_faces, opposite, saddle_at, cotan, double_area,
      cross_norm2, vdot, vcross, sqrt_361]
  · norm_num [cot_weight, pyramid_faces, opposite, saddle_at, cotan, double_area,
      cross_norm2, vdot, vcross, sqrt_361]
  · norm_num [cot_weight, pyramid_faces, opposite, saddle_at, cotan, double_area,
      cross_norm2, vdot, vcross, sqrt_361]

/-- Row `0` of the stiffness operator of the saddle in terms of the weights
at the interior vertex. -/
theorem saddle_stiffness_row (p : Point) :
    (cot_stiffness pyramid_faces (saddle_at p)).entry 0 0 =
      -(cot_weight pyramid_faces (saddle_at p) 0 1 +
        cot_weight pyramid_faces (saddle_at p) 0 2 +
        cot_weight pyramid_faces (saddle_at p) 0 3 +
        cot_weight pyramid_faces (saddle_at p) 0 4) ∧
    (∀ j, j ≠ 0 → (cot_stiffness pyramid_faces (saddle_at p)).entry 0 j =
      cot_weight pyramid_faces (saddle_at p) 0 j) := by
  constructor
  · show -((((saddle_at p).vertices_around 0).map
      (fun l => cot_weight pyramid_faces (saddle_at p) 0 l)).sum) = _
    have hring : (saddle_at p).vertices_around 0 = [1, 2, 3, 4] := rfl
    rw [hring]
    simp [add_assoc]
  · intro j hj
    show (if 0 = j then _ else cot_weight pyramid_faces (saddle_at p) 0 j) = _
    rw [if_neg (fun h => hj h.symm)]

/-- On the saddle with the interior vertex at `(0, 0, 2)` every doubled area
the cotangent weights use is the exact root: the squared norm of the cross
product is `625 = 25 * 25` at every corner of every face. -/
theorem saddle_areas_first (f : Nat × Nat × Nat) (hf : f ∈ pyramid_faces) (l i j : Nat)
    (h : opposite f i j = some l) :
    cross_norm2 ((saddle_at (0, 0, 2)).points l) ((saddle_at (0, 0, 2)).points i)
        ((saddle_at (0, 0, 2)).points j) = 25 * 25 ∧
    double_area ((saddle_at (0, 0, 2)).points l) ((saddle_at (0, 0, 2)).points i)
        ((saddle_at (0, 0, 2)).points j) = 25 := by
  simp only [pyramid_faces, List.mem_cons, List.mem_singleton, List.not_mem_nil,
    or_false] at hf
  rcases hf with rfl | rfl | rfl | rfl <;>
  · simp only [opposite] at h
    split_ifs at h with h1 h2 h3
    · rcases h1 with ⟨rfl, rfl⟩ | ⟨rfl, rfl⟩ <;>
      · cases h
        norm_num [double_area, cross_norm2, vdot, vcross, saddle_at, sqrt_625]
    · rcases h2 with ⟨rfl, rfl⟩ | ⟨rfl, rfl⟩ <;>
      · cases h
        norm_num [double_area, cross_norm2, vdot, vcross, saddle_at, sqrt_625]
    · rcases h3 with ⟨rfl, rfl⟩ | ⟨rfl, rfl⟩ <;>
      · cases h
        norm_num [double_area, cross_norm2, vdot, vcross, saddle_at, sqrt_625]

/-- On the saddle with the interior vertex at `(0, 0, 0)` every doubled area
the cotangent weights use is the exact root: the squared norm of the cross
product is `361 = 19 * 19` at every corner of every face. -/
theorem saddle_areas_second (f : Nat × Nat × Nat) (hf : f ∈ pyramid_faces) (l i j : Nat)
    (h : opposite f i j = some l) :
    cross_norm2 ((saddle_at (0, 0, 0)).points l) ((saddle_at (0, 0, 0)).points i)
        ((saddle_at (0, 0, 0)).points j) = 19 * 19 ∧
    double_area ((saddle_at (0, 0, 0)).points l) ((saddle_at (0, 0, 0)).points i)
        ((saddle_at (0, 0, 0)).points j) = 19 := by
  simp only [pyramid_faces, List.mem_cons, List.mem_singleton, List.not_mem_nil,
    or_false] at hf
  rcases hf with rfl | rfl | rfl | rfl <;>
  · simp only [opposite] at h
    split_ifs at h with h1 h2 h3
    · rcases h1 with ⟨rfl, rfl⟩ | ⟨rfl, rfl⟩ <;>
      · cases h
        norm_num [double_area, cross_norm2, vdot, vcross, saddle_at, sqrt_361]
    · rcases h2 with ⟨rfl, rfl⟩ | ⟨rfl, rfl⟩ <;>
      · cases h
        norm_num [double_area, cross_norm2, vdot, vcross, saddle_at, sqrt_361]
    · rcases h3 with ⟨rfl, rfl⟩ | ⟨rfl, rfl⟩ <;>
      · cases h
        norm_num [double_area, cross_norm2, vdot, vcross, saddle_at, sqrt_361]

/-- The solve of `fair` at order 1 on the saddle with the interior vertex at
`p`, in terms of the four cotangent weights at that vertex: the vertex goes
to the weighted mean of the ring, the ring stays. -/
theorem saddle_solve (p : Point) (w1 w2 w3 w4 : ℚ)
    (h1 : cot_weight pyramid_faces (saddle_at p) 0 1 = w1)
    (h2 : cot_weight pyramid_faces (saddle_at p) 0 2 = w2)
    (h3 : cot_weight pyramid_faces (saddle_at p) 0 3 = w3)
    (h4 : cot_weight pyramid_faces (saddle_at p) 0 4 = w4)
    (hsum : w1 + w2 + w3 + w4 ≠ 0) :
    ∃ X, solver_call (cotangent pyramid_faces) (saddle_at p) 1 = .ok X ∧
      X.row 0 = scale (-(w1 + w2 + w3 + w4))⁻¹
        (0 - (scale w1 (5, 0, 2) + scale w2 (0, 3, -2) +
          scale w3 (-5, 0, 2) + scale w4 (0, -3, -2))) ∧
      ∀ v, 1 ≤ v → v < 5 → X.row v = (saddle_at p).points v := by
  have hcall : solver_call (cotangent pyramid_faces) (saddle_at p) 1 =
      decoupled_solve (cot_stiffness pyramid_faces (saddle_at p))
        (mul_dense (area_mass pyramid_faces (attached (saddle_at p) 1))
          (DenseMatrix.setZero 5))
        (locked_mask (saddle_at p) 1)
        (initial_guess (attached (saddle_at p) 1) (saddle_at p).points) := rfl
  obtain ⟨h00, hrow⟩ := saddle_stiffness_row p
  rw [h1, h2, h3, h4] at h00
  have hA : (cot_stiffness pyramid_faces (saddle_at p)).entry 0 0 ≠ 0 := by
    rw [h00]
    exact neg_ne_zero.mpr hsum
  obtain ⟨X, hX, hX0, hXv⟩ := fan_solve (cot_stiffness pyramid_faces (saddle_at p))
    (mul_dense (area_mass pyramid_faces (attached (saddle_at p) 1)) (DenseMatrix.setZero 5))
    (initial_guess (attached (saddle_at p) 1) (saddle_at p).points)
    (locked_mask (saddle_at p) 1)
    (initial_guess_rows _ _)
    (by rw [saddle_mask]; decide) (by rw [saddle_mask]; decide)
    (by rw [saddle_mask]; decide) (by rw [saddle_mask]; decide)
    (by rw [saddle_mask]; decide) hA
  refine ⟨X, by rw [hcall]; exact hX, ?_, ?_⟩
  · rw [hX0, h00, mul_dense_zero, hrow 1 (by decide), hrow 2 (by decide),
      hrow 3 (by decide), hrow 4 (by decide), h1, h2, h3, h4,
      initial_guess_row _ _ 1 (show 1 < 5 by decide),
      initial_guess_row _ _ 2 (show 2 < 5 by decide),
      initial_guess_row _ _ 3 (show 3 < 5 by decide),
      initial_guess_row _ _ 4 (show 4 < 5 by decide)]
    rfl
  · intro v hv1 hv5
    rw [hXv v hv1 hv5]
    exact initial_guess_row _ _ v hv5

/-- A call of `fair` at order 1 on the saddle with the interior vertex at
`p`, when the solve puts that vertex at `q` and keeps the ring: it returns
and leaves the saddle with the interior vertex at `q`. -/
theorem fair_saddle (p q : Point)
    (hs : ∃ X, solver_call (cotangent pyramid_faces) (saddle_at p) 1 = .ok X ∧
      X.row 0 = q ∧ ∀ v, 1 ≤ v → v < 5 → X.row v = (saddle_at p).points v) :
    (fair (cotangent pyramid_faces) (saddle_at p) 1).outcome = .ok () ∧
    (fair (cotangent pyramid_faces) (saddle_at p) 1).mesh = saddle_at q := by
  obtain ⟨X, hX, h0, hrest⟩ := hs
  have hl : ¬ ∀ v, v < (saddle_at p).n_vertices → locked_mask (saddle_at p) 1 v = false := by
    intro h
    have h1 := h 1 (show 1 < 5 by decide)
    rw [saddle_mask] at h1
    revert h1
    decide
  rw [fair_solver_ok (cotangent pyramid_faces) (saddle_at p) 1 X hl hX]
  refine ⟨rfl, ?_⟩
  show ({ saddle_at p with points := copy_solution (saddle_at p) X (saddle_at p).points } :
    SurfaceMesh) = saddle_at q
  have hpts : copy_solution (saddle_at p) X (saddle_at p).points = (saddle_at q).points := by
    funext v
    rw [copy_solution_apply]
    show (if v < 5 then X.row v else (saddle_at p).points v) = (saddle_at q).points v
    by_cases hv : v < 5
    · rw [if_pos hv]
      by_cases hv0 : v = 0
      · subst hv0
        rw [h0]
        rfl
      · rw [hrest v (by omega) hv]
        interval_cases v <;> first | rfl | exact absurd rfl hv0
    · rw [if_neg hv]
      obtain ⟨m, rfl⟩ : ∃ m, v = m + 5 := ⟨v - 5, by omega⟩
      rfl
  rw [hpts]
  rfl

theorem decoupled_solve_pins (faces : List (Nat × Nat × Nat)) :
    pins_constrained_rows (cotangent faces).cholesky_solve := by
  intro A B c C X h i _ hc
  simp only [cotangent, decoupled_solve] at h
  split at h
  · cases h
  · simp only [Except.ok.injEq] at h
    subst h
    simp [hc]

theorem decoupled_solve_determined (faces : List (Nat × Nat × Nat)) :
    determined_by_pinned_rows (cotangent faces).cholesky_solve := by
  intro A B c C C2 hrows hpinned
  have hpart : ∀ i, pinned_part A c C2 i = pinned_part A c C i := by
    intro i
    unfold pinned_part
    rw [hrows]
    congr 1
    apply List.map_congr_left
    intro j _
    by_cases hc : c j = true
    · simp [hc, hpinned j hc]
    · simp [hc]
  simp only [cotangent, decoupled_solve, hrows, hpart]
  have hfun : (fun i => if c i = true then C2.row i
        else scale (A.entry i i)⁻¹ (B.row i - pinned_part A c C i)) =
      (fun i => if c i = true then C.row i
        else scale (A.entry i i)⁻¹ (B.row i - pinned_part A c C i)) := by
    funext i
    by_cases hc : c i = true
    · simp [hc, hpinned i hc]
    · simp [hc]
  rw [hfun]

/-- Claim C15, as stated, fails: with the cotangent-weight stiffness
operator and a solver that pins the constrained rows and solves the free row
exactly, `fair(mesh, 1)` on the saddle with the interior vertex at
`(0, 0, 2)` returns with that vertex at `(0, 0, 0)` (all four weights are 1),
and a second call on the result returns with it at `(0, 0, -16/25)` (the
weights are now 17/19 and 33/19). At both positions the doubled areas of the
four faces are rational (25 and 19), so the weights are the exact cotangent
weights, and they are positive. -/
theorem second_call_moves_the_interior_vertex :
    (∀ f ∈ pyramid_faces, ∀ l i j, opposite f i j = some l →
      cross_norm2 ((saddle_at (0, 0, 2)).points l) ((saddle_at (0, 0, 2)).points i)
          ((saddle_at (0, 0, 2)).points j) = 25 * 25 ∧
      double_area ((saddle_at (0, 0, 2)).points l) ((saddle_at (0, 0, 2)).points i)
          ((saddle_at (0, 0, 2)).points j) = 25) ∧
    (∀ f ∈ pyramid_faces, ∀ l i j, opposite f i j = some l →
      cross_norm2 ((saddle_at (0, 0, 0)).points l) ((saddle_at (0, 0, 0)).points i)
          ((saddle_at (0, 0, 0)).points j) = 19 * 19 ∧
      double_area ((saddle_at (0, 0, 0)).points l) ((saddle_at (0, 0, 0)).points i)
          ((saddle_at (0, 0, 0)).points j) = 19) ∧
    (cot_weight pyramid_faces (saddle_at (0, 0, 2)) 0 1 = 1 ∧
      cot_weight pyramid_faces (saddle_at (0, 0, 2)) 0 2 = 1 ∧
      cot_weight pyramid_faces (saddle_at (0, 0, 2)) 0 3 = 1 ∧
      cot_weight pyramid_faces (saddle_at (0, 0, 2)) 0 4 = 1) ∧
    (cot_weight pyramid_faces (saddle_at (0, 0, 0)) 0 1 = 17 / 19 ∧
      cot_weight pyramid_faces (saddle_at (0, 0, 0)) 0 2 = 33 / 19 ∧
      cot_weight pyramid_faces (saddle_at (0, 0, 0)) 0 3 = 17 / 19 ∧
      cot_weight pyramid_faces (saddle_at (0, 0, 0)) 0 4 = 33 / 19) ∧
    pins_constrained_rows (cotangent pyramid_faces).cholesky_solve ∧
    determined_by_pinned_rows (cotangent pyramid_faces).cholesky_solve ∧
    (fair (cotangent pyramid_faces) (saddle_at (0, 0, 2)) 1).outcome = .ok () ∧
    (fair (cotangent pyramid_faces)
      (fair (cotangent pyramid_faces) (saddle_at (0, 0, 2)) 1).mesh 1).outcome = .ok () ∧
    (fair (cotangent pyramid_faces) (saddle_at (0, 0, 2)) 1).mesh.points 0 = (0, 0, 0) ∧
    (fair (cotangent pyramid_faces)
      (fair (cotangent pyramid_faces) (saddle_at (0, 0, 2)) 1).mesh 1).mesh.points 0 =
      (0, 0, -(16 / 25)) ∧
    (fair (cotangent pyramid_faces)
      (fair (cotangent pyramid_faces) (saddle_at (0, 0, 2)) 1).mesh 1).mesh.points ≠
      (fair (cotangent pyramid_faces) (saddle_at (0, 0, 2)) 1).mesh.points := by
  obtain ⟨a1, a2, a3, a4⟩ := saddle_weights_first
  obtain ⟨b1, b2, b3, b4⟩ := saddle_weights_second
  have s1 := saddle_solve (0, 0, 2) 1 1 1 1 a1 a2 a3 a4 (by norm_num)
  have s2 := saddle_solve (0, 0, 0) (17 / 19) (33 / 19) (17 / 19) (33 / 19) b1 b2 b3 b4
    (by norm_num)
  have e1 : scale (-((1 : ℚ) + 1 + 1 + 1))⁻¹
      (0 - (scale 1 (5, 0, 2) + scale 1 (0, 3, -2) + scale 1 (-5, 0, 2) +
        scale 1 (0, -3, -2))) = (0, 0, 0) := by
    norm_num [scale]
  have e2 : scale (-((17 / 19 : ℚ) + 33 / 19 + 17 / 19 + 33 / 19))⁻¹
      (0 - (scale (17 / 19) (5, 0, 2) + scale (33 / 19) (0, 3, -2) +
        scale (17 / 19) (-5, 0, 2) + scale (33 / 19) (0, -3, -2))) = (0, 0, -(16 / 25)) := by
    norm_num [scale]
  rw [e1] at s1
  rw [e2] at s2
  have h1 := fair_saddle (0, 0, 2) (0, 0, 0) s1
  have h2 := fair_saddle (0, 0, 0) (0, 0, -(16 / 25)) s2
  refine ⟨fun f hf l i j h => saddle_areas_first f hf l i j h,
    fun f hf l i j h => saddle_areas_second f hf l i j h,
    ⟨a1, a2, a3, a4⟩, ⟨b1, b2, b3, b4⟩,
    decoupled_solve_pins pyramid_faces, decoupled_solve_determined pyramid_faces,
    h1.1, ?_, ?_, ?_, ?_⟩
  · rw [h1.2]
    exact h2.1
  · rw [h1.2]
    rfl
  · rw [h1.2, h2.2]
    rfl
  · rw [h1.2, h2.2]
    intro h
    have h0 := congrFun h 0
    simp only [saddle_at] at h0
    norm_num at h0

/-- Claim C15, amended: when `fair` returns, a second call on the result
returns too and produces the same positions, provided the assembly routines
give the second call the operators of the first (the stiffness and mass
operators are not changed by the move of the free vertices) and the solver
pins the constrained rows and depends on the initial guess through them
only. -/
theorem second_call_same_when_operators_fixed {Mat : Type} [Mul Mat] [Inv Mat]
    (ext : Laplace Mat) (mesh : SurfaceMesh) (k : Nat)
    (hpin : pins_constrained_rows ext.cholesky_solve)
    (hdet : determined_by_pinned_rows ext.cholesky_solve)
    (hok : (fair ext mesh k).outcome = .ok ())
    (hS : ext.setup_stiffness_matrix (attached (fair ext mesh k).mesh k) false true =
      ext.setup_stiffness_matrix (attached mesh k) false true)
    (hM : ext.setup_mass_matrix (attached (fair ext mesh k).mesh k) false =
      ext.setup_mass_matrix (attached mesh k) false) :
    (fair ext (fair ext mesh k).mesh k).outcome = .ok () ∧
    (fair ext (fair ext mesh k).mesh k).mesh.points = (fair ext mesh k).mesh.points := by
  obtain ⟨h, X, hs⟩ := fair_ok_inv ext mesh k hok
  have hm1 : (fair ext mesh k).mesh =
      { mesh with points := copy_solution mesh X mesh.points } := by
    rw [fair_solver_ok ext mesh k X h hs]
  rw [hm1] at hS hM ⊢
  generalize hm : ({ mesh with points := copy_solution mesh X mesh.points } : SurfaceMesh)
    = m1 at hS hM ⊢
  have hn : m1.n_vertices = mesh.n_vertices := by rw [← hm]
  have hpts : m1.points = copy_solution mesh X mesh.points := by rw [← hm]
  have hmask : locked_mask m1 k = locked_mask mesh k :=
    locked_mask_congr mesh m1 k hn (by rw [← hm]) (by rw [← hm]) (by rw [← hm])
      (by rw [← hm]; rfl)
  have hl : ¬ ∀ v, v < m1.n_vertices → locked_mask m1 k v = false := by
    rw [hmask, hn]
    exact h
  have hrows : (initial_guess (attached m1 k) m1.points).rows =
      (initial_guess (attached mesh k) mesh.points).rows := by
    rw [initial_guess_rows, initial_guess_rows]
    exact hn
  have hagree : ∀ i, locked_mask mesh k i = true →
      (initial_guess (attached m1 k) m1.points).row i =
        (initial_guess (attached mesh k) mesh.points).row i := by
    intro i hc
    rw [initial_guess_row_eq, initial_guess_row_eq]
    show (if i < m1.n_vertices then m1.points i else 0) =
      (if i < mesh.n_vertices then mesh.points i else 0)
    rw [hn]
    by_cases hi : i < mesh.n_vertices
    · rw [if_pos hi, if_pos hi, hpts, copy_solution_apply, if_pos hi]
      have hrow := hpin _ _ _ _ X hs i (by rw [initial_guess_rows]; exact hi) hc
      rw [hrow]
      exact initial_guess_row (attached mesh k) mesh.points i hi
    · rw [if_neg hi, if_neg hi]
  have hs1 : solver_call ext m1 k = .ok X := by
    unfold solver_call
    rw [hS, hM, hmask, hn]
    rw [hdet _ _ _ _ _ hrows hagree]
    exact hs
  rw [fair_solver_ok ext m1 k X hl hs1]
  refine ⟨rfl, ?_⟩
  show copy_solution m1 X m1.points = m1.points
  funext v
  rw [copy_solution_apply, hpts, copy_solution_apply, hn]
  by_cases hv : v < mesh.n_vertices
  · rw [if_pos hv, if_pos hv]
  · rw [if_neg hv, if_neg hv]

/-- Claim C15, amended, on the pyramid with collaborators whose operators
do not depend on the positions: the second call returns with the positions
of the first. -/
theorem second_call_same_when_operators_fixed_witness :
    pins_constrained_rows stand_in.cholesky_solve ∧
    determined_by_pinned_rows stand_in.cholesky_solve ∧
    (fair stand_in pyramid 1).outcome = .ok () ∧
    (fair stand_in (fair stand_in pyramid 1).mesh 1).outcome = .ok () ∧
    (fair stand_in (fair stand_in pyramid 1).mesh 1).mesh.points =
      (fair stand_in pyramid 1).mesh.points :=
  ⟨pin_solve_pins, pin_solve_determined, by decide,
   (second_call_same_when_operators_fixed stand_in pyramid 1 pin_solve_pins
     pin_solve_determined (by decide) rfl rfl).1,
   (second_call_same_when_operators_fixed stand_in pyramid 1 pin_solve_pins
     pin_solve_determined (by decide) rfl rfl).2⟩

end pmp
